import Mathlib

/-!
# Verification of the Loaded import-reconciliation pipeline

Shallow embedding of the CSV import / deduplication / transfer-detection core
of the Loaded personal-budgeting app (`src/lib/csvParser.ts`,
`src/lib/csvDetector.ts`, `src/app/import/revolut/preview.tsx`).

Modelling conventions:
* JavaScript strings are Lean `String`s; character-level operations are
  performed on `String.data : List Char`.  Case folding and the whitespace
  class are modelled over ASCII (the JS originals are Unicode-aware; none of
  the verified properties depends on non-ASCII case folding).
* JavaScript numbers are modelled as `Rat` (amounts appearing in the claims
  are exact decimal values, so IEEE-754 rounding is immaterial); `NaN` is
  modelled as `none` of an `Option`.
* A canonical transaction's `date` field (an ISO-8601 instant string in the
  source) is modelled as its millisecond timestamp (`Int`), which is the value
  the source manipulates via `new Date(s).getTime()` and
  `new Date(s).toISOString()`.
-/

namespace Loaded

/-- ASCII approximation of the JavaScript whitespace class used by
`String.prototype.trim` and the regexp class used in the source. -/
def isWsChar (c : Char) : Bool :=
  c = ' ' || c = '\t' || c = '\n' || c = '\r' || c = '\x0b' || c = '\x0c'

/-- Drop leading and trailing whitespace (JS `String.prototype.trim`). -/
def trimChars (cs : List Char) : List Char :=
  ((cs.dropWhile isWsChar).reverse.dropWhile isWsChar).reverse

/-- JS `s.trim()`. -/
def jsTrim (s : String) : String := String.mk (trimChars s.data)

/-- JS `s.toLowerCase()` (ASCII case folding). -/
def jsToLower (s : String) : String := String.mk (s.data.map Char.toLower)

/-- Substring test on character lists (JS `String.prototype.includes`). -/
def listContainsSub (hay pat : List Char) : Bool :=
  hay.tails.any (fun t => pat.isPrefixOf t)

/-- JS `s.includes(pat)`. -/
def jsIncludes (s pat : String) : Bool := listContainsSub s.data pat.data

/-- Index-decorated list, mirroring a JS `forEach((x, index) => ...)` /
`for (let i = ...)` traversal. -/
def withIdx {α : Type} : Nat → List α → List (Nat × α)
  | _, [] => []
  | n, a :: as => (n, a) :: withIdx (n + 1) as

/-- Model of `List.flatMap` written out, so that all equations used in proofs are
definitional. -/
def concatMap {α β : Type} (f : α → List β) : List α → List β
  | [] => []
  | a :: l => f a ++ concatMap f l

/-! ## Calendar-day rendering of a millisecond timestamp

`new Date(ms).toISOString().split('T')[0]` renders the UTC calendar day of an
instant as `YYYY-MM-DD`.  `civilFromDays` is the standard civil-from-days
conversion on the day number `⌊ms / 86400000⌋`. -/
/-- Milliseconds per day (`1000 * 60 * 60 * 24` in the source). -/
def msPerDay : Int := 86400000

/-- Convert a day number (days since 1970-01-01) to a civil `(year, month, day)`
triple. -/
def civilFromDays (z0 : Int) : Int × Int × Int :=
  let z := z0 + 719468
  let era := Int.fdiv z 146097
  let doe := z - era * 146097
  let yoe := Int.fdiv (doe - Int.fdiv doe 1460 + Int.fdiv doe 36524 - Int.fdiv doe 146096) 365
  let y := yoe + era * 400
  let doy := doe - (365 * yoe + Int.fdiv yoe 4 - Int.fdiv yoe 100)
  let mp := Int.fdiv (5 * doy + 2) 153
  let d := doy - Int.fdiv (153 * mp + 2) 5 + 1
  let m := mp + (if mp < 10 then 3 else -9)
  (y + (if m ≤ 2 then 1 else 0), m, d)

def pad2 (n : Nat) : String := if n < 10 then "0" ++ toString n else toString n

def pad4 (n : Nat) : String :=
  if n < 10 then "000" ++ toString n
  else if n < 100 then "00" ++ toString n
  else if n < 1000 then "0" ++ toString n
  else toString n

/-- Model of `new Date(ms).toISOString().split('T')[0]`: the UTC calendar day of the
instant `ms`, rendered `YYYY-MM-DD`. -/
def isoDayString (ms : Int) : String :=
  let c := civilFromDays (Int.fdiv ms msPerDay)
  pad4 c.1.toNat ++ "-" ++ pad2 c.2.1.toNat ++ "-" ++ pad2 c.2.2.toNat

/-! ## Canonical transactions -/
/-- Model of `kind: 'income' | 'expense'` of a canonical transaction. -/
inductive Kind : Type
  | income
  | expense
deriving DecidableEq, Repr

/-- String rendering used when a kind is interpolated into a template string. -/
def kindStr : Kind → String
  | .income => "income"
  | .expense => "expense"

/-- Canonical transaction (`ParsedTransaction` in `csvParser.ts`, `Transaction`
in `preview.tsx`), restricted to the fields the verified routines read:
`title`, `amount` (minor units), `kind`, `date` (millisecond timestamp of the
ISO instant), `currency`.  The remaining fields (`subtitle`, `categoryId`,
analytics flags, `displayName`) are never inspected by the deduplication or
transfer-detection code verified here. -/
structure Tx : Type where
  title : String
  amount : Int
  kind : Kind
  date : Int
  currency : String
deriving DecidableEq, Repr

/-! ## Deduplication key and filter (`preview.tsx` lines 36-52 and 144-153) -/
/-- Model of `replace(/\s+/g, " ")`: collapse every whitespace run to a single space.
The Boolean argument records whether the scan is inside a whitespace run that
has already emitted its replacement space. -/
def collapseWsAux : Bool → List Char → List Char
  | _, [] => []
  | inRun, c :: rest =>
    if isWsChar c then
      if inRun then collapseWsAux true rest
      else ' ' :: collapseWsAux true rest
    else c :: collapseWsAux false rest

def collapseWs (cs : List Char) : List Char := collapseWsAux false cs

/-- Model of `normalizeText` of `preview.tsx`:
`(s || "").toLowerCase().replace(/\s+/g, " ").trim()` — lower-case, collapse
every whitespace run to a single space, trim. -/
def normalizeText (s : String) : String :=
  String.mk (trimChars (collapseWs (s.data.map Char.toLower)))

/-- Model of `normalizeDateForKey` of `preview.tsx` on a valid instant:
`new Date(value).toISOString().split('T')[0]`. -/
def normalizeDateForKey (ms : Int) : String := isoDayString ms

/-- Model of `makeKeyFromTransaction` of `preview.tsx`:
the template string `title|abs(amount)|kind|day`. -/
def makeKeyFromTransaction (t : Tx) : String :=
  normalizeText t.title ++ "|" ++ toString t.amount.natAbs ++ "|" ++
    kindStr t.kind ++ "|" ++ normalizeDateForKey t.date

/-- Model of `makeKeyFromDoc` of `preview.tsx`.  On the model the persisted document's
field coercions (`doc.title || ""`, `Number(doc.amount)`, `doc.date || ""`) are
identities, so the key agrees with `makeKeyFromTransaction`. -/
def makeKeyFromDoc (d : Tx) : String := makeKeyFromTransaction d

/-- The dedupe loop of `handleImport` (`preview.tsx` lines 144-153): build the
set of existing keys, keep a candidate only when its key is absent. -/
def dedupeTransactions (existing candidates : List Tx) : List Tx :=
  let existingKeys := existing.map makeKeyFromDoc
  candidates.filter (fun t => !(existingKeys.contains (makeKeyFromTransaction t)))

/-! ## Same-batch transfer pairing (`detectTransferPairs`, `csvParser.ts`
lines 234-281)

The source groups transaction indices into an insertion-ordered `Map` keyed by
`` `${dateKey}_${tx.amount}_${tx.currency}` `` and then, per group, runs a
double loop over pairs `i < j`, marking both indices and pushing the pair
twice.  The `Map` is modelled as an association list updated by `insertGroup`
(append to an existing key's bucket, otherwise append a fresh bucket at the
end, exactly as `Map.set` does); buckets carry `(index, transaction)` pairs
since the source stores indices into an immutable array. -/
/-- The grouping key `` `${dateKey}_${tx.amount}_${tx.currency}` ``. -/
def groupKey (t : Tx) : String :=
  isoDayString t.date ++ "_" ++ toString t.amount ++ "_" ++ t.currency

/-- One `Map.set`-style update of the insertion-ordered group map. -/
def insertGroup (k : String) (p : Nat × Tx) :
    List (String × List (Nat × Tx)) → List (String × List (Nat × Tx))
  | [] => [(k, [p])]
  | g :: gs => if g.1 = k then (g.1, g.2 ++ [p]) :: gs else g :: insertGroup k p gs

/-- The `potentialMatches` map after the `transactions.forEach` loop. -/
def buildGroups (txs : List Tx) : List (String × List (Nat × Tx)) :=
  (withIdx 0 txs).foldl (fun gs p => insertGroup (groupKey p.2) p gs) []

/-- The per-pair test of the inner double loop: different `kind`, and absolute
date difference at most one day (`daysDiff <= 1` with
`daysDiff = |ms₁ - ms₂| / 86400000`). -/
def pairMatches (t1 t2 : Tx) : Bool :=
  decide (t1.kind ≠ t2.kind) && decide ((t1.date - t2.date).natAbs ≤ 86400000)

/-- The double loop over one group: for each `i < j` with `pairMatches`, the
source pushes the pair `{index1, index2}` **twice**. -/
def groupPairs : List (Nat × Tx) → List (Nat × Nat)
  | [] => []
  | p :: rest =>
    concatMap (fun q => if pairMatches p.2 q.2 then [(p.1, q.1), (p.1, q.1)] else []) rest
      ++ groupPairs rest

/-- Model of `Set.add`: append, as a no-op when already present. -/
def setAdd {α : Type} [DecidableEq α] (s : List α) (x : α) : List α :=
  if x ∈ s then s else s ++ [x]

/-- Model of `detectTransferPairs`: the result `{ indices, pairs }`.  `indices` is the
`Set` of both endpoints of every qualifying pair (the source adds `indices[i]`
and `indices[j]` just before the two pushes; the set's content is the
endpoints of the recorded pairs). -/
def detectTransferPairs (txs : List Tx) : List Nat × List (Nat × Nat) :=
  let pairs := concatMap (fun g => groupPairs g.2) (buildGroups txs)
  (pairs.foldl (fun s pr => setAdd (setAdd s pr.1) pr.2) [], pairs)

/-- First-occurrence key order of the insertion-ordered `Map`. -/
def keysOf (l : List (Nat × Tx)) : List String :=
  l.foldl (fun ks p => setAdd ks (groupKey p.2)) []

/-- Reference form of the finished group map: first-occurrence keys, each
bucket the in-order sublist of entries with that key. -/
def groupsOf (l : List (Nat × Tx)) : List (String × List (Nat × Tx)) :=
  (keysOf l).map (fun k => (k, l.filter (fun p => groupKey p.2 == k)))

/-! ## Greedy new-against-existing transfer matching

`detectAibTransfers` (`csvParser.ts` lines 292-370) and
`detectCrossBankTransfers` (lines 383-434) share one loop shape: for each new
transaction (in order), scan the existing transactions in original order,
skipping already-consumed ones, and accept the **first** one satisfying the
match condition, marking it consumed.  The two functions differ only in the
eligibility test on the new transaction and in the pair condition, so the
shared loop is embedded once (`greedyDetect`) and instantiated per function. -/
/-- Result sets of a greedy detection run: `newIndices` / `existingIndices` /
`matchedExistingIndices` (all JS `Set`s, modelled as insertion-ordered
duplicate-free lists) and the `pairs` array. -/
structure DetectState : Type where
  newIndices : List Nat
  existingIndices : List Nat
  matched : List Nat
  pairs : List (Nat × Nat)
deriving DecidableEq, Repr

def emptyDetectState : DetectState := ⟨[], [], [], []⟩

/-- The inner `for (existingIndex = 0; ...)` scan: first existing entry that
is not yet consumed and satisfies the condition (the source `break`s there). -/
def findFirstMatch (cond : Tx → Bool) (matched : List Nat) :
    List (Nat × Tx) → Option Nat
  | [] => none
  | (ei, et) :: rest =>
    if ei ∈ matched then findFirstMatch cond matched rest
    else if cond et then some ei
    else findFirstMatch cond matched rest

/-- One iteration of the outer `newTransactions.forEach` loop. -/
def greedyStep (eligible : Tx → Bool) (cond : Tx → Tx → Bool)
    (existing : List (Nat × Tx)) (st : DetectState) (p : Nat × Tx) : DetectState :=
  if eligible p.2 then
    match findFirstMatch (cond p.2) st.matched existing with
    | some ei =>
      { newIndices := setAdd st.newIndices p.1
        existingIndices := setAdd st.existingIndices ei
        matched := setAdd st.matched ei
        pairs := st.pairs ++ [(p.1, ei)] }
    | none => st
  else st

def greedyDetect (eligible : Tx → Bool) (cond : Tx → Tx → Bool)
    (newTxs existingTxs : List Tx) : DetectState :=
  (withIdx 0 newTxs).foldl (greedyStep eligible cond (withIdx 0 existingTxs))
    emptyDetectState

/-- Model of `t.title.includes("*MOBI")`. -/
def hasMobiMarker (t : Tx) : Bool := jsIncludes t.title "*MOBI"

/-- The per-candidate condition of `detectAibTransfers`: the existing record
also carries the `*MOBI` marker, same UTC calendar day, same absolute amount,
same currency, opposite kind. -/
def aibMatchCond (nt et : Tx) : Bool :=
  hasMobiMarker et &&
  (isoDayString nt.date == isoDayString et.date) &&
  (nt.amount.natAbs == et.amount.natAbs) &&
  (nt.currency == et.currency) &&
  decide (nt.kind ≠ et.kind)

/-- Model of `detectAibTransfers`: only new transactions whose title contains `*MOBI`
participate; greedy first-match against not-yet-consumed existing records. -/
def detectAibTransfers (newTxs existingTxs : List Tx) : DetectState :=
  greedyDetect hasMobiMarker aibMatchCond newTxs existingTxs

/-- The provider labels accepted by `detectCrossBankTransfers`. -/
inductive Source : Type
  | aib_import
  | revolut_import
deriving DecidableEq, Repr

/-- The per-candidate condition of `detectCrossBankTransfers`: absolute date
difference at most 4 days (`daysDiff > 4` ⇒ `continue`), same absolute amount,
same currency, opposite kind. -/
def crossMatchCond (nt et : Tx) : Bool :=
  decide ((nt.date - et.date).natAbs ≤ 4 * 86400000) &&
  (nt.amount.natAbs == et.amount.natAbs) &&
  (nt.currency == et.currency) &&
  decide (nt.kind ≠ et.kind)

/-- Model of `detectCrossBankTransfers`: every new transaction is eligible (no marker
prerequisite); the `newSource` / `existingSource` label arguments are received
but never read by the body, exactly as in the source. -/
def detectCrossBankTransfers (newTxs existingTxs : List Tx)
    (newSource existingSource : Source) : DetectState :=
  greedyDetect (fun _ => true) crossMatchCond newTxs existingTxs

/-! ## Dialect-B display-name cleanup (`convertAibToAppTransaction`,
`csvParser.ts` lines 607-626)

```
title.replace(/^TST-\s*?/i, ...)   -- actually /^TST-\s*/i, '' etc., in order:
  /^TST-\s*/i, /^D\/D\s*/i, /^VDP-\s*/i, /^VDC-\s*/i,
  then /\*{2}\d{4}\s*/g, then /\*+$/, then .trim()
```
Each anchored prefix replace runs **once**, in that fixed order. -/
/-- Anchored case-insensitive literal match (`/^pat/i` on an ASCII literal
pattern, given here in lower case). -/
def matchesCI (pat : String) (cs : List Char) : Bool :=
  (cs.take pat.length).map Char.toLower == pat.data

/-- One anchored `replace(/^pat\s*/i, '')`: when the pattern matches, remove
it together with the following whitespace run, else leave the input alone. -/
def dropNoiseCI (pat : String) (cs : List Char) : List Char :=
  if matchesCI pat cs then (cs.drop pat.length).dropWhile isWsChar else cs

/-- The four prefix replaces, in source order: `TST-`, `D/D`, `VDP-`, `VDC-`. -/
def dropAibNoise (cs : List Char) : List Char :=
  dropNoiseCI "vdc-" (dropNoiseCI "vdp-" (dropNoiseCI "d/d" (dropNoiseCI "tst-" cs)))

/-- Model of `replace(/\*{2}\d{4}\s*/g, '')`: left-to-right global scan removing each
occurrence of two asterisks followed by exactly four digits (and the trailing
whitespace run); on a failed match at a position the scan advances one
character.  The fuel argument (initially the list length, an upper bound on
the number of scan steps) makes the recursion structural. -/
def removeCardMaskAux : Nat → List Char → List Char
  | 0, cs => cs
  | fuel + 1, cs =>
    match cs with
    | '*' :: '*' :: a :: b :: c :: d :: rest =>
      if a.isDigit && b.isDigit && c.isDigit && d.isDigit then
        removeCardMaskAux fuel (rest.dropWhile isWsChar)
      else '*' :: removeCardMaskAux fuel ('*' :: a :: b :: c :: d :: rest)
    | c :: rest => c :: removeCardMaskAux fuel rest
    | [] => []

def removeCardMask (cs : List Char) : List Char := removeCardMaskAux cs.length cs

/-- Model of `replace(/\*+$/, '')`: drop the trailing run of asterisks. -/
def dropTrailingStars (cs : List Char) : List Char :=
  (cs.reverse.dropWhile (fun c => c = '*')).reverse

/-- The `cleanDisplayName` value computed in `convertAibToAppTransaction`. -/
def cleanDisplayName (title : String) : String :=
  String.mk (trimChars (dropTrailingStars (removeCardMask (dropAibNoise title.data))))

/-- The emitted `displayName: cleanDisplayName || title`. -/
def aibDisplayName (title : String) : String :=
  if cleanDisplayName title = "" then title else cleanDisplayName title

/-! ## Format detection (`csvDetector.ts`, `detectCSVProvider`) -/
/-- JS `String.prototype.split` with a single-character separator. -/
def splitOnChar (sep : Char) : List Char → List (List Char)
  | [] => [[]]
  | c :: rest =>
    let r := splitOnChar sep rest
    if c = sep then [] :: r
    else
      match r with
      | [] => [[c]]
      | h :: t => (c :: h) :: t

/-- Model of `s.split(sep)` for a one-character separator string. -/
def jsSplit (sep : Char) (s : String) : List String :=
  (splitOnChar sep s.data).map String.mk

inductive CSVProvider : Type
  | aib
  | revolut
  | unknown
deriving DecidableEq, Repr

/-- The dialect-B (AIB) header fingerprint, tested first. -/
def aibHeaderCheck (headerLower : String) : Bool :=
  jsIncludes headerLower "posted transactions" ||
  jsIncludes headerLower "posted account" ||
  (jsIncludes headerLower "debit" && jsIncludes headerLower "credit" &&
    jsIncludes headerLower "balance")

/-- The dialect-A (Revolut) header fingerprint, tested second. -/
def revolutHeaderCheck (headerLower : String) : Bool :=
  (jsIncludes headerLower "type" && jsIncludes headerLower "product" &&
    jsIncludes headerLower "state") ||
  (jsIncludes headerLower "started date" && jsIncludes headerLower "completed date") ||
  (jsIncludes headerLower "amount" && jsIncludes headerLower "fee" &&
    jsIncludes headerLower "currency" && jsIncludes headerLower "state")

/-- Longest leading digit run of a character list, with the remainder. -/
def leadDigits : List Char → List Char × List Char
  | [] => ([], [])
  | c :: rest =>
    if c.isDigit then
      let p := leadDigits rest
      (c :: p.1, p.2)
    else ([], c :: rest)

/-- The anchored date-shape test `/^\d{1,2}\/\d{1,2}\/\d{2,4}$/` used by the
structural fallback. -/
def isAibDateCell (s : String) : Bool :=
  let p1 := leadDigits s.data
  match p1.2 with
  | '/' :: r2 =>
    let p2 := leadDigits r2
    match p2.2 with
    | '/' :: r4 =>
      let p3 := leadDigits r4
      decide (1 ≤ p1.1.length) && decide (p1.1.length ≤ 2) &&
        decide (1 ≤ p2.1.length) && decide (p2.1.length ≤ 2) &&
        decide (2 ≤ p3.1.length) && decide (p3.1.length ≤ 4) && p3.2.isEmpty
    | _ => false
  | _ => false

/-- The structural fallback on the second line: `>= 10` comma-split columns ⇒
dialect A; 4-7 columns with a date-shaped field ⇒ dialect B; else unknown. -/
def structuralFallback (lines : List String) : CSVProvider :=
  match lines[1]? with
  | none => .unknown
  | some firstDataLine =>
    let columns := (jsSplit ',' firstDataLine).map jsTrim
    if columns.length ≥ 10 then .revolut
    else if 4 ≤ columns.length ∧ columns.length ≤ 7 then
      if columns.any isAibDateCell then .aib else .unknown
    else .unknown

/-- The first non-blank line of the trimmed content (the header). -/
def headerLineOf (csvContent : String) : Option String :=
  (jsSplit '\n' (jsTrim csvContent)).find? (fun l => decide (0 < (jsTrim l).length))

/-- Model of `detectCSVProvider`: AIB fingerprint first, Revolut fingerprint second,
structural fallback third. -/
def detectCSVProvider (csvContent : String) : CSVProvider :=
  if jsTrim csvContent = "" then .unknown
  else
    let lines := jsSplit '\n' (jsTrim csvContent)
    if lines.length = 0 then .unknown
    else
      match headerLineOf csvContent with
      | none => .unknown
      | some headerLine =>
        let headerLower := jsToLower headerLine
        if aibHeaderCheck headerLower then .aib
        else if revolutHeaderCheck headerLower then .revolut
        else structuralFallback lines

/-! ## The CSV tokenizer and number parsing (`csvParser.ts`) -/
/-- Model of `parseCSVLine` (`csvParser.ts` lines 196-222): quote-aware splitting at
unquoted commas, with `""` inside a quoted field producing a literal `"`.
The accumulator holds the current field reversed. -/
def csvFieldsAux : List Char → List Char → Bool → List (List Char)
  | [], cur, _ => [cur.reverse]
  | '"' :: '"' :: rest2, cur, true => csvFieldsAux rest2 ('"' :: cur) true
  | '"' :: rest, cur, true => csvFieldsAux rest cur false
  | '"' :: rest, cur, false => csvFieldsAux rest cur true
  | ',' :: rest, cur, true => csvFieldsAux rest (',' :: cur) true
  | ',' :: rest, cur, false => cur.reverse :: csvFieldsAux rest [] false
  | c :: rest, cur, inside => csvFieldsAux rest (c :: cur) inside

def parseCSVLine (line : String) : List String :=
  (csvFieldsAux line.data [] false).map String.mk

def digitsToNat (ds : List Char) : Nat :=
  ds.foldl (fun n c => 10 * n + (c.toNat - 48)) 0

/-- Exponent suffix of a JS float literal (`e`/`E`, optional sign, digits);
an exponent with no digits is ignored, as `parseFloat` stops before it. -/
def parseExpAux (r : List Char) : Int :=
  let sgn : Int := match r with | '-' :: _ => -1 | _ => 1
  let r1 : List Char := match r with | '-' :: t => t | '+' :: t => t | _ => r
  let ds := (leadDigits r1).1
  if ds.isEmpty then 0 else sgn * (digitsToNat ds : Int)

/-- JS `parseFloat`, modelled over `Rat` with `none` for `NaN`: skip leading
whitespace, optional sign, decimal digits with optional fraction and optional
exponent, ignoring trailing garbage; `NaN` when no digit is found.  (The
`Infinity` literal and hexadecimal forms are not modelled; they do not occur
in bank CSV amount fields.  IEEE-754 rounding is not modelled: every value the
verified claims touch is an exact decimal.) -/
def jsParseFloat (s : String) : Option Rat :=
  let cs := s.data.dropWhile isWsChar
  let sgn : Rat := match cs with | '-' :: _ => -1 | _ => 1
  let cs1 : List Char := match cs with | '-' :: r => r | '+' :: r => r | _ => cs
  let ip := leadDigits cs1
  let fp : List Char × List Char :=
    match ip.2 with
    | '.' :: r => leadDigits r
    | _ => ([], ip.2)
  if ip.1.isEmpty && fp.1.isEmpty then none
  else
    let mant : Rat :=
      (digitsToNat ip.1 : Rat) + (digitsToNat fp.1 : Rat) / ((10 : Rat) ^ fp.1.length)
    let ex : Int :=
      match fp.2 with
      | 'e' :: r => parseExpAux r
      | 'E' :: r => parseExpAux r
      | _ => 0
    some (sgn * mant * (10 : Rat) ^ ex)

/-- JS `Math.round` on a non-negative value: `⌊x + 1/2⌋`. -/
def jsRound (q : Rat) : Int := ⌊q + 1 / 2⌋

/-- Model of `l.replace(/\r$/, '')`. -/
def stripCR (s : String) : String :=
  match s.data.reverse with
  | '\r' :: rest => String.mk rest.reverse
  | _ => s

/-- Model of `csvContent.split('\n')` followed by per-line trailing-`\r` stripping
(both parsers open with exactly these two steps). -/
def splitLines (csvContent : String) : List String :=
  (jsSplit '\n' csvContent).map stripCR

/-- Model of `s.replace(/,/g, '')`. -/
def stripCommas (s : String) : String := String.mk (s.data.filter (fun c => !(c == ',')))

/-- Model of `s.replace(/^﻿/, '')`: strip one leading BOM. -/
def stripBOM (s : String) : String :=
  match s.data with
  | '﻿' :: rest => String.mk rest
  | _ => s

/-- Model of `fields[idx]?.trim() || dflt` under a resolved optional column index
(an unresolved column or a missing/blank field falls back to the default). -/
def fieldOr (fields : List String) (idx : Option Nat) (dflt : String) : String :=
  match idx with
  | none => dflt
  | some k =>
    match fields[k]? with
    | none => dflt
    | some f => if jsTrim f = "" then dflt else jsTrim f

/-- Outcome of one data row: a structured record, or a skip with its reason. -/
inductive RowOutcome (α : Type) : Type
  | record (t : α)
  | skip (reason : String)
deriving DecidableEq, Repr

structure SkippedRow : Type where
  line : Nat
  reason : String
deriving DecidableEq, Repr

/-- Accumulator of the row loop: parsed records, skip counter, diagnostics. -/
structure ParseAcc (α : Type) : Type where
  transactions : List α
  skipped : Nat
  skippedDetails : List SkippedRow
deriving DecidableEq, Repr

/-- One iteration of the row loop: data row at 0-based position `p.1` (source
line `p.1 + 2`: header is line 1). -/
def parseRowsStep {α : Type} (outcome : String → RowOutcome α)
    (st : ParseAcc α) (p : Nat × String) : ParseAcc α :=
  match outcome p.2 with
  | .record t => { st with transactions := st.transactions ++ [t] }
  | .skip r =>
    { st with
      skipped := st.skipped + 1
      skippedDetails := st.skippedDetails ++ [⟨p.1 + 2, r⟩] }

def parseRows {α : Type} (outcome : String → RowOutcome α)
    (dataLines : List String) : ParseAcc α :=
  (withIdx 0 dataLines).foldl (parseRowsStep outcome) ⟨[], 0, []⟩

/-! ## Dialect-A (Revolut) parser (`parseRevolutCSV`, lines 59-155) -/
structure RevolutTransaction : Type where
  type : String
  product : String
  startedDate : String
  completedDate : String
  description : String
  payer : String
  payee : String
  amount : Rat
  fee : Option Rat
  currency : String
  state : String
  balance : String
deriving DecidableEq, Repr

/-- Model of `columnMap.get(name)`: the map is built with `Map.set` per header, so a
later duplicate header overwrites an earlier one — the last matching index
wins. -/
def revColIdx (headers : List String) (name : String) : Option Nat :=
  (withIdx 0 headers).foldl
    (fun acc p => if jsToLower (jsTrim p.2) = name then some p.1 else acc) none

/-- Model of `getColumnIndex(names)`: first alias resolving to a column (aliases are
written lower-case, as the source lower-cases them before lookup). -/
def revGetCol (headers : List String) : List String → Option Nat
  | [] => none
  | n :: rest =>
    match revColIdx headers n with
    | some i => some i
    | none => revGetCol headers rest

structure RevCols : Type where
  typeIdx : Option Nat
  productIdx : Option Nat
  startedDateIdx : Option Nat
  completedDateIdx : Option Nat
  descriptionIdx : Option Nat
  amountIdx : Option Nat
  feeIdx : Option Nat
  currencyIdx : Option Nat
  stateIdx : Option Nat
  balanceIdx : Option Nat
deriving DecidableEq, Repr

def mkRevCols (headers : List String) : RevCols where
  typeIdx := revGetCol headers ["type"]
  productIdx := revGetCol headers ["product"]
  startedDateIdx := revGetCol headers ["started date", "started", "date"]
  completedDateIdx := revGetCol headers ["completed date", "completed"]
  descriptionIdx := revGetCol headers ["description", "desc"]
  amountIdx := revGetCol headers ["amount"]
  feeIdx := revGetCol headers ["fee"]
  currencyIdx := revGetCol headers ["currency"]
  stateIdx := revGetCol headers ["state", "status"]
  balanceIdx := revGetCol headers ["balance"]

/-- Model of `amountIdx >= 0 ? parseFloat(fields[amountIdx]?.trim() || '0') : 0`
(`none` is `NaN`). -/
def revAmountOf (fields : List String) (cols : RevCols) : Option Rat :=
  match cols.amountIdx with
  | some _ => jsParseFloat (fieldOr fields cols.amountIdx "0")
  | none => some 0

def revFeeOf (fields : List String) (cols : RevCols) : Option Rat :=
  match cols.feeIdx with
  | some _ => jsParseFloat (fieldOr fields cols.feeIdx "0")
  | none => some 0

/-- The body of the dialect-A row loop: blank line ⇒ "Empty line"; fewer than
3 fields ⇒ "Not enough columns"; `NaN` amount ⇒ "Invalid amount"; otherwise a
record.  (No step of the row construction can throw, so the source's
"Parse error" catch-all is unreachable.) -/
def revRowOutcome (cols : RevCols) (line : String) : RowOutcome RevolutTransaction :=
  let l := jsTrim line
  if l = "" then .skip "Empty line"
  else
    let fields := parseCSVLine l
    if fields.length < 3 then .skip "Not enough columns"
    else
      match revAmountOf fields cols with
      | none => .skip "Invalid amount"
      | some amount =>
        .record
          { type := fieldOr fields cols.typeIdx ""
            product := fieldOr fields cols.productIdx ""
            startedDate := fieldOr fields cols.startedDateIdx ""
            completedDate := fieldOr fields cols.completedDateIdx ""
            description := fieldOr fields cols.descriptionIdx ""
            payer := ""
            payee := ""
            amount := amount
            fee := revFeeOf fields cols
            currency := fieldOr fields cols.currencyIdx "GBP"
            state := fieldOr fields cols.stateIdx ""
            balance := fieldOr fields cols.balanceIdx "" }

structure RevolutParseResult : Type where
  transactions : List RevolutTransaction
  skipped : Nat
  totalRows : Nat
  skippedDetails : List SkippedRow
deriving DecidableEq, Repr

deriving instance DecidableEq for Except

def parseRevolutCSV (csvContent : String) : Except String RevolutParseResult :=
  let lines := splitLines csvContent
  if lines.length < 2 then .error "CSV file is empty or invalid"
  else
    let cols := mkRevCols (parseCSVLine (lines.headD ""))
    match cols.amountIdx with
    | none => .error "CSV must contain Amount column"
    | some _ =>
      let acc := parseRows (revRowOutcome cols) (lines.drop 1)
      .ok
        { transactions := acc.transactions
          skipped := acc.skipped
          totalRows := lines.length - 1
          skippedDetails := acc.skippedDetails }

/-! ## Dialect-B (AIB) parser (`parseAibCSV`, lines 462-574) -/
structure AibTransaction : Type where
  date : String
  description : String
  amount : Rat
  currency : String
  balance : String
  product : String
deriving DecidableEq, Repr

/-- One alias lookup of the AIB `getColumnIndex`: exact match on the
normalized headers first, substring-contains match second. -/
def aibGetColAux (normHeaders : List String) (aliasName : String) : Option Nat :=
  match (withIdx 0 normHeaders).find? (fun p => p.2 == jsToLower aliasName) with
  | some p => some p.1
  | none =>
    match (withIdx 0 normHeaders).find? (fun p => jsIncludes p.2 (jsToLower aliasName)) with
    | some p => some p.1
    | none => none

def aibGetCol (normHeaders : List String) : List String → Option Nat
  | [] => none
  | a :: rest =>
    match aibGetColAux normHeaders a with
    | some i => some i
    | none => aibGetCol normHeaders rest

structure AibCols : Type where
  dateIdx : Option Nat
  descIdx : Option Nat
  amountIdx : Option Nat
  debitIdx : Option Nat
  creditIdx : Option Nat
  currencyIdx : Option Nat
  balanceIdx : Option Nat
  productIdx : Option Nat
deriving DecidableEq, Repr

def mkAibCols (headers : List String) : AibCols :=
  let nh := headers.map (fun h => jsToLower (jsTrim h))
  { dateIdx := aibGetCol nh
      ["date", "transaction date", "value date", "posting date", "posted date",
       "posted transactions date"]
    descIdx := aibGetCol nh ["description", "details", "narrative", "info", "reference"]
    amountIdx := aibGetCol nh ["amount", "transaction amount"]
    debitIdx := aibGetCol nh ["debit", "withdrawal", "debit amount", "debit eur"]
    creditIdx := aibGetCol nh ["credit", "lodgement", "credit amount", "credit eur"]
    currencyIdx := aibGetCol nh ["currency", "ccy"]
    balanceIdx := aibGetCol nh ["balance", "running balance", "balance eur"]
    productIdx := aibGetCol nh ["account", "account name", "account type", "account product"] }

/-- The debit step of the AIB amount derivation: a present, non-blank debit
field parsing (after comma stripping) to a non-zero value sets
`amount = -|debit|`; otherwise the running amount stays `0`.
(`fields[debitIdx] && fields[debitIdx].trim()` is equivalent to the trimmed
field being non-empty.) -/
def aibDebitStep (fields : List String) (cols : AibCols) : Rat :=
  match cols.debitIdx with
  | some k =>
    match fields[k]? with
    | some f =>
      if jsTrim f ≠ "" then
        match jsParseFloat (stripCommas (jsTrim f)) with
        | some d => if d ≠ 0 then -|d| else 0
        | none => 0
      else 0
    | none => 0
  | none => 0

/-- The credit step: only consulted when the running amount is still `0`; a
non-zero credit sets `amount = +|credit|`. -/
def aibCreditStep (fields : List String) (cols : AibCols) (a1 : Rat) : Rat :=
  if a1 = 0 then
    match cols.creditIdx with
    | some k =>
      match fields[k]? with
      | some f =>
        if jsTrim f ≠ "" then
          match jsParseFloat (stripCommas (jsTrim f)) with
          | some c => if c ≠ 0 then |c| else 0
          | none => 0
        else 0
      | none => 0
    | none => 0
  else a1

/-- The full debit → credit → amount precedence chain; `none` is the `NaN`
that only the generic-amount fallback can produce (the debit/credit branches
guard against `NaN`).  The fallback fires on a truthy *raw* field
(`fields[amountIdx]`, not trimmed). -/
def aibAmountValue (fields : List String) (cols : AibCols) : Option Rat :=
  let a2 := aibCreditStep fields cols (aibDebitStep fields cols)
  if a2 = 0 then
    match cols.amountIdx with
    | some k =>
      match fields[k]? with
      | some f => if f ≠ "" then jsParseFloat (stripCommas (jsTrim f)) else some 0
      | none => some 0
    | none => some 0
  else some a2

/-- The body of the dialect-B row loop (minimum field count 2). -/
def aibRowOutcome (cols : AibCols) (line : String) : RowOutcome AibTransaction :=
  let l := jsTrim line
  if l = "" then .skip "Empty line"
  else
    let fields := parseCSVLine l
    if fields.length < 2 then .skip "Not enough columns"
    else
      match aibAmountValue fields cols with
      | none => .skip "Invalid amount"
      | some amount =>
        .record
          { date := fieldOr fields cols.dateIdx ""
            description := fieldOr fields cols.descIdx ""
            amount := amount
            currency := fieldOr fields cols.currencyIdx "EUR"
            balance := fieldOr fields cols.balanceIdx ""
            product :=
              match cols.productIdx with
              | some _ => fieldOr fields cols.productIdx ""
              | none => "AIB" }

structure AibParseResult : Type where
  transactions : List AibTransaction
  skipped : Nat
  totalRows : Nat
  skippedDetails : List SkippedRow
deriving DecidableEq, Repr

def parseAibCSV (csvContent : String) : Except String AibParseResult :=
  let lines := splitLines csvContent
  if lines.length < 2 then .error "CSV file is empty or invalid"
  else
    let cols := mkAibCols (parseCSVLine (stripBOM (lines.headD "")))
    if cols.dateIdx = none ∨
        (cols.amountIdx = none ∧ cols.debitIdx = none ∧ cols.creditIdx = none) then
      .error "CSV must contain date and amount (or debit/credit) columns"
    else
      let acc := parseRows (aibRowOutcome cols) (lines.drop 1)
      .ok
        { transactions := acc.transactions
          skipped := acc.skipped
          totalRows := lines.length - 1
          skippedDetails := acc.skippedDetails }

/-! ## Dialect-B canonicalization of sign and minor units
(`convertAibToAppTransaction`, lines 576-578) -/
/-- Model of `isExpense = aib.amount < 0`. -/
def aibCanonKind (a : Rat) : Kind := if a < 0 then .expense else .income

/-- Model of `amountInCents = Math.round(Math.abs(aib.amount) * 100)`. -/
def aibCanonAmount (a : Rat) : Int := jsRound (|a| * 100)

/-! ### Row-loop accounting (supporting C8) -/
/-- The skip diagnostics produced by a run of the row loop: one entry per
skipped row, carrying the 1-based source line number (data row `k` is file
line `k + 2`) and the reason. -/
def skipEntriesOf {α : Type} (outcome : String → RowOutcome α)
    (ps : List (Nat × String)) : List SkippedRow :=
  ps.filterMap (fun p =>
    match outcome p.2 with
    | .skip r => some ⟨p.1 + 2, r⟩
    | .record _ => none)

/-- The records produced by a run of the row loop. -/
def recordsOf {α : Type} (outcome : String → RowOutcome α)
    (ps : List (Nat × String)) : List α :=
  ps.filterMap (fun p =>
    match outcome p.2 with
    | .record t => some t
    | .skip _ => none)

/-- The value of `parseRevolutCSV "Amount,B,C\n\nxx\nabc,1,2"`: three data
rows, all skipped — a blank line (line 2), a one-field line (line 3), and a
line whose amount field parses to `NaN` (line 4). -/
def revWitnessResult : RevolutParseResult where
  transactions := []
  skipped := 3
  totalRows := 3
  skippedDetails :=
    [{ line := 2, reason := "Empty line" },
     { line := 3, reason := "Not enough columns" },
     { line := 4, reason := "Invalid amount" }]

/-- The value of `parseAibCSV "Date,Amount\n\nxx\n01/02/2024,abc"`: the same
three skip causes for dialect B (minimum 2 fields). -/
def aibWitnessResult : AibParseResult where
  transactions := []
  skipped := 3
  totalRows := 3
  skippedDetails :=
    [{ line := 2, reason := "Empty line" },
     { line := 3, reason := "Not enough columns" },
     { line := 4, reason := "Invalid amount" }]

/-! ## Theorems -/

/-! ### Supporting lemmas for the group-map characterization -/
theorem mem_concatMap {α β : Type} (f : α → List β) (l : List α) (b : β) :
    b ∈ concatMap f l ↔ ∃ a ∈ l, b ∈ f a := by
  induction l with
  | nil => simp [concatMap]
  | cons x xs ih => simp [concatMap, ih]

theorem concatMap_map {α β γ : Type} (f : β → List γ) (g : α → β) (l : List α) :
    concatMap f (l.map g) = concatMap (fun a => f (g a)) l := by
  induction l with
  | nil => rfl
  | cons x xs ih => simp [concatMap, ih]

theorem mem_setAdd {α : Type} [DecidableEq α] (s : List α) (x a : α) :
    a ∈ setAdd s x ↔ a ∈ s ∨ a = x := by
  unfold setAdd
  split <;> rename_i hx
  · constructor
    · exact fun h => Or.inl h
    · rintro (h | rfl) <;> [exact h; exact hx]
  · simp

theorem setAdd_nodup {α : Type} [DecidableEq α] {s : List α} (h : s.Nodup) (x : α) :
    (setAdd s x).Nodup := by
  unfold setAdd
  split <;> rename_i hx
  · exact h
  · simpa [List.nodup_append] using ⟨h, hx⟩

theorem keysOf_append_singleton (l : List (Nat × Tx)) (p : Nat × Tx) :
    keysOf (l ++ [p]) = setAdd (keysOf l) (groupKey p.2) := by
  simp [keysOf, List.foldl_append]

theorem foldl_setAdd_nodup (l : List (Nat × Tx)) :
    ∀ ks : List String, ks.Nodup →
      (l.foldl (fun ks p => setAdd ks (groupKey p.2)) ks).Nodup := by
  induction l with
  | nil => intro ks h; exact h
  | cons x xs ih => intro ks h; exact ih _ (setAdd_nodup h _)

theorem keysOf_nodup (l : List (Nat × Tx)) : (keysOf l).Nodup :=
  foldl_setAdd_nodup l [] List.nodup_nil

theorem mem_foldl_setAdd (l : List (Nat × Tx)) :
    ∀ (ks : List String) (k : String),
      k ∈ l.foldl (fun ks p => setAdd ks (groupKey p.2)) ks ↔
        k ∈ ks ∨ ∃ p ∈ l, groupKey p.2 = k := by
  induction l with
  | nil => simp
  | cons x xs ih =>
    intro ks k
    rw [List.foldl_cons, ih]
    rw [mem_setAdd]
    constructor
    · rintro (⟨h | rfl⟩ | ⟨p, hp, hk⟩)
      · exact Or.inl h
      · exact Or.inr ⟨x, by simp⟩
      · exact Or.inr ⟨p, by simp [hp], hk⟩
    · rintro (h | ⟨p, hp, hk⟩)
      · exact Or.inl (Or.inl h)
      · rcases List.mem_cons.mp hp with rfl | hp
        · exact Or.inl (Or.inr hk.symm)
        · exact Or.inr ⟨p, hp, hk⟩

theorem mem_keysOf (l : List (Nat × Tx)) (k : String) :
    k ∈ keysOf l ↔ ∃ p ∈ l, groupKey p.2 = k := by
  simpa using mem_foldl_setAdd l [] k

theorem insertGroup_map_eq (k : String) (p : Nat × Tx) (F : String → List (Nat × Tx)) :
    ∀ ks : List String, ks.Nodup → (k ∉ ks → F k = []) →
      insertGroup k p (ks.map (fun x => (x, F x))) =
        (setAdd ks k).map (fun x => (x, if x = k then F x ++ [p] else F x)) := by
  intro ks
  induction ks with
  | nil =>
    intro _ hF
    simp [insertGroup, setAdd, hF (by simp)]
  | cons k0 ks ih =>
    intro hnd hF
    by_cases hk0 : k0 = k
    · subst hk0
      have hk0nin : k0 ∉ ks := (List.nodup_cons.mp hnd).1
      simp only [List.map_cons, insertGroup, if_pos rfl, setAdd, List.mem_cons,
        true_or, if_true, if_pos rfl]
      congr 1
      refine (List.map_congr_left ?_).symm
      intro x hx
      have : x ≠ k0 := fun h => hk0nin (h ▸ hx)
      simp [this]
    · have hnd' : ks.Nodup := (List.nodup_cons.mp hnd).2
      have hkk0 : ¬ k = k0 := fun hh => hk0 hh.symm
      have hF' : k ∉ ks → F k = [] := fun h =>
        hF (by simp [List.mem_cons, hkk0, h])
      have step : insertGroup k p ((k0 :: ks).map (fun x => (x, F x))) =
          (k0, F k0) :: insertGroup k p (ks.map (fun x => (x, F x))) := by
        simp [insertGroup, hk0]
      rw [step, ih hnd' hF']
      by_cases hmem : k ∈ ks
      · simp [setAdd, List.mem_cons, hmem, hkk0, hk0, List.map_cons]
      · simp [setAdd, List.mem_cons, hmem, hkk0, hk0, List.map_cons]

theorem buildGroups_eq_groupsOf (txs : List Tx) :
    buildGroups txs = groupsOf (withIdx 0 txs) := by
  suffices h : ∀ l : List (Nat × Tx),
      l.foldl (fun gs p => insertGroup (groupKey p.2) p gs) [] = groupsOf l by
    exact h _
  intro l
  induction l using List.reverseRecOn with
  | nil => simp [groupsOf, keysOf]
  | append_singleton l p ih =>
    rw [List.foldl_append, List.foldl_cons, List.foldl_nil, ih]
    unfold groupsOf
    rw [insertGroup_map_eq (groupKey p.2) p _ (keysOf l) (keysOf_nodup l)
      (fun h => by
        rw [List.filter_eq_nil_iff]
        intro q hq
        simp only [beq_iff_eq]
        exact fun hkq => h ((mem_keysOf l _).mpr ⟨q, hq, hkq⟩)),
      keysOf_append_singleton]
    refine List.map_congr_left ?_
    intro x hx
    by_cases hxk : x = groupKey p.2
    · subst hxk
      simp [List.filter_append]
    · simp [List.filter_append, Ne.symm hxk, hxk]

/-! ### Index bookkeeping for `withIdx` -/
theorem withIdx_lb {α : Type} (l : List α) :
    ∀ (n : Nat) (q : Nat × α), q ∈ withIdx n l → n ≤ q.1 := by
  induction l with
  | nil => simp [withIdx]
  | cons x xs ih =>
    intro n q hq
    rcases List.mem_cons.mp hq with rfl | hq
    · exact Nat.le_refl n
    · exact Nat.le_of_succ_le (ih (n + 1) q hq)

theorem withIdx_pairwise {α : Type} (l : List α) :
    ∀ n : Nat, (withIdx n l).Pairwise (fun a b => a.1 < b.1) := by
  induction l with
  | nil => simp [withIdx]
  | cons x xs ih =>
    intro n
    refine List.pairwise_cons.mpr ⟨?_, ih (n + 1)⟩
    intro q hq
    exact Nat.lt_of_succ_le (withIdx_lb xs (n + 1) q hq)

theorem withIdx_mem_of_getElem {α : Type} (l : List α) :
    ∀ (n i : Nat) (h : i < l.length), (n + i, l[i]) ∈ withIdx n l := by
  induction l with
  | nil => intro n i h; exact absurd h (by simp)
  | cons x xs ih =>
    intro n i h
    match i with
    | 0 => simp [withIdx]
    | i + 1 =>
      have h' : i < xs.length := Nat.lt_of_succ_lt_succ h
      have hmem := ih (n + 1) i h'
      have harith : (n + 1) + i = n + (i + 1) := by omega
      rw [harith] at hmem
      show (n + (i + 1), (x :: xs)[i + 1]) ∈ (n, x) :: withIdx (n + 1) xs
      exact List.mem_cons_of_mem _ (by simpa using hmem)

theorem pairwise_fst_inj {α : Type} {xs : List (Nat × α)}
    (h : xs.Pairwise (fun a b => a.1 < b.1)) :
    ∀ {a : Nat} {b c : α}, (a, b) ∈ xs → (a, c) ∈ xs → b = c := by
  induction xs with
  | nil => simp
  | cons p rest ih =>
    intro a b c hb hc
    have hlt := (List.pairwise_cons.mp h).1
    have hrest := (List.pairwise_cons.mp h).2
    rcases List.mem_cons.mp hb with hb | hb <;> rcases List.mem_cons.mp hc with hc | hc
    · rw [← hb] at hc; exact congrArg Prod.snd hc.symm
    · exact absurd (hlt _ hc) (by rw [← hb]; simp)
    · exact absurd (hlt _ hb) (by rw [← hc]; simp)
    · exact ih hrest hb hc

/-! ### Counting pairs produced by the double loop -/
theorem count_concatMap_zero {α β : Type} [BEq β] [LawfulBEq β]
    (f : α → List β) (l : List α) (b : β) (h : ∀ a ∈ l, b ∉ f a) :
    (concatMap f l).count b = 0 := by
  rw [List.count_eq_zero]
  intro hmem
  rcases (mem_concatMap f l b).mp hmem with ⟨a, ha, hb⟩
  exact h a ha hb

theorem groupPairs_mem {xs : List (Nat × Tx)} {a b : Nat}
    (h : (a, b) ∈ groupPairs xs) :
    (∃ x ∈ xs, x.1 = a) ∧ ∃ x ∈ xs, x.1 = b := by
  induction xs with
  | nil => simp [groupPairs] at h
  | cons p rest ih =>
    rw [groupPairs, List.mem_append] at h
    rcases h with h | h
    · rcases (mem_concatMap _ _ _).mp h with ⟨q, hq, hab⟩
      by_cases hm : pairMatches p.2 q.2 = true
      · rw [if_pos hm] at hab
        simp only [List.mem_cons, List.not_mem_nil, or_false, Prod.mk.injEq,
          or_self] at hab
        exact ⟨⟨p, by simp, hab.1.symm⟩, ⟨q, by simp [hq], hab.2.symm⟩⟩
      · rw [if_neg hm] at hab
        simp at hab
    · rcases ih h with ⟨⟨x, hx, hxa⟩, ⟨y, hy, hyb⟩⟩
      exact ⟨⟨x, by simp [hx], hxa⟩, ⟨y, by simp [hy], hyb⟩⟩

theorem count_row_pairs (i j : Nat) (t1 t2 : Tx) :
    ∀ rest : List (Nat × Tx), rest.Pairwise (fun a b => a.1 < b.1) →
      (j, t2) ∈ rest → pairMatches t1 t2 = true →
      (concatMap (fun q => if pairMatches t1 q.2 then [(i, q.1), (i, q.1)] else [])
        rest).count (i, j) = 2 := by
  intro rest
  induction rest with
  | nil => simp
  | cons q rest ih =>
    intro hpw hj hm
    have hlt := (List.pairwise_cons.mp hpw).1
    have hpw' := (List.pairwise_cons.mp hpw).2
    rw [concatMap, List.count_append]
    rcases List.mem_cons.mp hj with hq | hj
    · have hq2 : q.2 = t2 := by rw [← hq]
      have hq1 : q.1 = j := by rw [← hq]
      have hzero :
          (concatMap (fun q => if pairMatches t1 q.2 then [(i, q.1), (i, q.1)] else [])
            rest).count (i, j) = 0 := by
        refine count_concatMap_zero _ _ _ ?_
        intro a ha hmem
        split at hmem
        · have : j = a.1 := by
            rcases List.mem_cons.mp hmem with h | h
            · exact (Prod.mk.injEq _ _ _ _ ▸ h).2
            · simp only [List.mem_cons, List.not_mem_nil, or_false, Prod.mk.injEq] at h
              exact h.2
          have := hlt a ha
          omega
        · simp at hmem
      rw [hzero, hq2, if_pos hm, hq1]
      simp [List.count_cons]
    · have hq1 : q.1 ≠ j := by
        intro h
        have := hlt (j, t2) hj
        omega
      have hzero :
          (if pairMatches t1 q.2 then [(i, q.1), (i, q.1)] else []).count (i, j) = 0 := by
        rw [List.count_eq_zero]
        intro hmem
        split at hmem
        · simp only [List.mem_cons, List.not_mem_nil, or_false, Prod.mk.injEq] at hmem
          rcases hmem with h | h <;> exact hq1 h.2.symm
        · simp at hmem
      rw [hzero, ih hpw' hj hm]

theorem groupPairs_count (i j : Nat) (t1 t2 : Tx) (hij : i < j)
    (hm : pairMatches t1 t2 = true) :
    ∀ xs : List (Nat × Tx), xs.Pairwise (fun a b => a.1 < b.1) →
      (i, t1) ∈ xs → (j, t2) ∈ xs →
      (groupPairs xs).count (i, j) = 2 := by
  intro xs
  induction xs with
  | nil => simp
  | cons p rest ih =>
    intro hpw hi hj
    have hlt := (List.pairwise_cons.mp hpw).1
    have hpw' := (List.pairwise_cons.mp hpw).2
    rw [groupPairs, List.count_append]
    rcases List.mem_cons.mp hi with hpi | hi
    · have hp1 : p.1 = i := by rw [← hpi]
      have hp2 : p.2 = t1 := by rw [← hpi]
      have hjr : (j, t2) ∈ rest := by
        rcases List.mem_cons.mp hj with hpj | hjr
        · exfalso
          have : j = i := by rw [← hpi] at hpj; exact (Prod.mk.injEq _ _ _ _ ▸ hpj).1
          omega
        · exact hjr
      have h2 : (groupPairs rest).count (i, j) = 0 := by
        rw [List.count_eq_zero]
        intro hmem
        obtain ⟨⟨x, hx, hxi⟩, -⟩ := groupPairs_mem hmem
        have := hlt x hx
        omega
      rw [h2, hp1, hp2, count_row_pairs i j t1 t2 rest hpw' hjr hm]
    · have hp1 : p.1 ≠ i := by
        intro h
        have := hlt (i, t1) hi
        omega
      have hjr : (j, t2) ∈ rest := by
        rcases List.mem_cons.mp hj with hpj | hjr
        · exfalso
          have hpj1 : p.1 = j := by rw [← hpj]
          have := hlt (i, t1) hi
          omega
        · exact hjr
      have h1 :
          (concatMap (fun q => if pairMatches p.2 q.2 then [(p.1, q.1), (p.1, q.1)] else [])
            rest).count (i, j) = 0 := by
        refine count_concatMap_zero _ _ _ ?_
        intro a ha hmem
        split at hmem
        · have : i = p.1 := by
            rcases List.mem_cons.mp hmem with h | h
            · exact (Prod.mk.injEq _ _ _ _ ▸ h).1
            · simp only [List.mem_cons, List.not_mem_nil, or_false, Prod.mk.injEq] at h
              exact h.1
          exact hp1 this.symm
        · simp at hmem
      rw [h1, ih hpw' hi hjr]

theorem count_concatMap_unique {β : Type} [BEq β] [LawfulBEq β]
    (H : String → List β) (b : β) (k0 : String) :
    ∀ ks : List String, ks.Nodup → k0 ∈ ks →
      (∀ k ∈ ks, k ≠ k0 → (H k).count b = 0) →
      (concatMap H ks).count b = (H k0).count b := by
  intro ks
  induction ks with
  | nil => simp
  | cons k ks ih =>
    intro hnd hk0 hz
    rw [concatMap, List.count_append]
    rcases List.mem_cons.mp hk0 with rfl | hk0
    · have : (concatMap H ks).count b = 0 := by
        refine count_concatMap_zero _ _ _ ?_
        intro a ha hmem
        have hne : a ≠ k0 := fun h => (List.nodup_cons.mp hnd).1 (h ▸ ha)
        have := hz a (List.mem_cons_of_mem _ ha) hne
        exact (List.count_eq_zero.mp this) hmem
      omega
    · have hkne : k ≠ k0 := fun h => (List.nodup_cons.mp hnd).1 (h ▸ hk0)
      rw [hz k (List.mem_cons_self _ _) hkne,
        ih (List.nodup_cons.mp hnd).2 hk0 (fun k' hk' h' => hz k' (List.mem_cons_of_mem _ hk') h'),
        Nat.zero_add]

theorem mem_indices_foldl (prs : List (Nat × Nat)) :
    ∀ (s : List Nat) (a : Nat),
      a ∈ prs.foldl (fun s pr => setAdd (setAdd s pr.1) pr.2) s ↔
        a ∈ s ∨ ∃ pr ∈ prs, pr.1 = a ∨ pr.2 = a := by
  induction prs with
  | nil => simp
  | cons pr prs ih =>
    intro s a
    rw [List.foldl_cons, ih, mem_setAdd, mem_setAdd]
    constructor
    · rintro (((h | h) | h) | ⟨q, hq, h⟩)
      · exact Or.inl h
      · exact Or.inr ⟨pr, by simp, Or.inl h.symm⟩
      · exact Or.inr ⟨pr, by simp, Or.inr h.symm⟩
      · exact Or.inr ⟨q, by simp [hq], h⟩
    · rintro (h | ⟨q, hq, h⟩)
      · exact Or.inl (Or.inl (Or.inl h))
      · rcases List.mem_cons.mp hq with rfl | hq
        · rcases h with h | h
          · exact Or.inl (Or.inl (Or.inr h.symm))
          · exact Or.inl (Or.inr h.symm)
        · exact Or.inr ⟨q, hq, h⟩

/-- C2. `detectTransferPairs` groups transactions by
(UTC calendar day, amount, currency); within a group, every pair `i < j` of
transactions with different `kind` and absolute date difference at most one
day has both endpoints in the returned index set, and the pair `(i, j)` occurs
**exactly twice** in the returned pairs list (the known double-push: a
duplicate entry of the same pair, not a second distinct pair). -/
theorem detectTransferPairs_double_push (txs : List Tx) (i j : Nat) (t1 t2 : Tx)
    (hi : txs[i]? = some t1) (hj : txs[j]? = some t2) (hij : i < j)
    (hday : isoDayString t1.date = isoDayString t2.date)
    (hamt : t1.amount = t2.amount)
    (hcur : t1.currency = t2.currency)
    (hkind : t1.kind ≠ t2.kind)
    (hdiff : (t1.date - t2.date).natAbs ≤ 86400000) :
    (detectTransferPairs txs).2.count (i, j) = 2 ∧
      i ∈ (detectTransferPairs txs).1 ∧ j ∈ (detectTransferPairs txs).1 := by
  have hk : groupKey t1 = groupKey t2 := by
    unfold groupKey
    rw [hday, hamt, hcur]
  have hm : pairMatches t1 t2 = true := by
    simp [pairMatches, hkind, hdiff]
  have hib : i < txs.length := by
    rcases List.getElem?_eq_some_iff.mp hi with ⟨h, -⟩; exact h
  have hjb : j < txs.length := by
    rcases List.getElem?_eq_some_iff.mp hj with ⟨h, -⟩; exact h
  have hit : txs[i] = t1 := by
    rcases List.getElem?_eq_some_iff.mp hi with ⟨h, hh⟩; exact hh
  have hjt : txs[j] = t2 := by
    rcases List.getElem?_eq_some_iff.mp hj with ⟨h, hh⟩; exact hh
  have hmem1 : (i, t1) ∈ withIdx 0 txs := by
    have := withIdx_mem_of_getElem txs 0 i hib
    rwa [Nat.zero_add, hit] at this
  have hmem2 : (j, t2) ∈ withIdx 0 txs := by
    have := withIdx_mem_of_getElem txs 0 j hjb
    rwa [Nat.zero_add, hjt] at this
  have hpwl : (withIdx 0 txs).Pairwise (fun a b => a.1 < b.1) := withIdx_pairwise txs 0
  set l := withIdx 0 txs with hl
  have hcount : (detectTransferPairs txs).2.count (i, j) = 2 := by
    show (concatMap (fun g => groupPairs g.2) (buildGroups txs)).count (i, j) = 2
    rw [buildGroups_eq_groupsOf, groupsOf, concatMap_map, ← hl]
    have hk0 : groupKey t1 ∈ keysOf l := (mem_keysOf l _).mpr ⟨(i, t1), hmem1, rfl⟩
    rw [count_concatMap_unique _ _ (groupKey t1) (keysOf l) (keysOf_nodup l) hk0 ?_]
    · refine groupPairs_count i j t1 t2 hij hm _ ?_ ?_ ?_
      · exact List.Pairwise.sublist (List.filter_sublist l) hpwl
      · exact List.mem_filter.mpr ⟨hmem1, by simp⟩
      · exact List.mem_filter.mpr ⟨hmem2, by simp [← hk]⟩
    · intro k hkk hkne
      rw [List.count_eq_zero]
      intro hmem
      obtain ⟨⟨x, hx, hxi⟩, -⟩ := groupPairs_mem hmem
      have hxl : x ∈ l := (List.mem_filter.mp hx).1
      have hxk : groupKey x.2 = k := by
        have := (List.mem_filter.mp hx).2
        simpa using this
      have hx2 : x.2 = t1 := by
        have : (i, x.2) ∈ l := by
          have : x = (i, x.2) := by
            rw [← hxi]
          rwa [← this]
        exact pairwise_fst_inj hpwl this hmem1
      exact hkne (by rw [← hxk, hx2])
  refine ⟨hcount, ?_, ?_⟩
  · have hp : (i, j) ∈ (detectTransferPairs txs).2 := by
      have := hcount
      exact List.count_pos_iff.mp (by omega)
    show i ∈ (detectTransferPairs txs).2.foldl (fun s pr => setAdd (setAdd s pr.1) pr.2) []
    rw [mem_indices_foldl]
    exact Or.inr ⟨(i, j), hp, Or.inl rfl⟩
  · have hp : (i, j) ∈ (detectTransferPairs txs).2 := by
      have := hcount
      exact List.count_pos_iff.mp (by omega)
    show j ∈ (detectTransferPairs txs).2.foldl (fun s pr => setAdd (setAdd s pr.1) pr.2) []
    rw [mem_indices_foldl]
    exact Or.inr ⟨(i, j), hp, Or.inr rfl⟩

/-- Witness for C2: two transactions on 2024-03-01 with amount 5000 minor
units, same currency, opposite kind ⇒ both indices in the index set and the
single logical pair `(0, 1)` recorded exactly twice. -/
theorem detectTransferPairs_double_push_witness :
    (detectTransferPairs
        [⟨"Pocket topup", 5000, .income, 1709251200000, "EUR"⟩,
         ⟨"To Pocket", 5000, .expense, 1709251200000, "EUR"⟩]).2.count (0, 1) = 2 ∧
      0 ∈ (detectTransferPairs
        [⟨"Pocket topup", 5000, .income, 1709251200000, "EUR"⟩,
         ⟨"To Pocket", 5000, .expense, 1709251200000, "EUR"⟩]).1 ∧
      1 ∈ (detectTransferPairs
        [⟨"Pocket topup", 5000, .income, 1709251200000, "EUR"⟩,
         ⟨"To Pocket", 5000, .expense, 1709251200000, "EUR"⟩]).1 :=
  detectTransferPairs_double_push
    [⟨"Pocket topup", 5000, .income, 1709251200000, "EUR"⟩,
     ⟨"To Pocket", 5000, .expense, 1709251200000, "EUR"⟩]
    0 1
    ⟨"Pocket topup", 5000, .income, 1709251200000, "EUR"⟩
    ⟨"To Pocket", 5000, .expense, 1709251200000, "EUR"⟩
    (by decide) (by decide) (by decide) (by decide) (by decide) (by decide)
    (by decide) (by decide)

theorem findFirstMatch_not_matched (cond : Tx → Bool) (matched : List Nat) :
    ∀ (l : List (Nat × Tx)) (ei : Nat),
      findFirstMatch cond matched l = some ei → ei ∉ matched := by
  intro l
  induction l with
  | nil => intro ei h; simp [findFirstMatch] at h
  | cons q rest ih =>
    intro ei h
    rcases q with ⟨qi, qt⟩
    rw [findFirstMatch] at h
    by_cases hq : qi ∈ matched
    · rw [if_pos hq] at h
      exact ih ei h
    · rw [if_neg hq] at h
      by_cases hc : cond qt = true
      · rw [if_pos hc] at h
        injection h with h
        exact h ▸ hq
      · rw [if_neg hc] at h
        exact ih ei h

theorem greedyStep_invariant (eligible : Tx → Bool) (cond : Tx → Tx → Bool)
    (existing : List (Nat × Tx)) (st : DetectState) (p : Nat × Tx)
    (h1 : st.matched = st.pairs.map Prod.snd) (h2 : st.matched.Nodup) :
    (greedyStep eligible cond existing st p).matched
        = (greedyStep eligible cond existing st p).pairs.map Prod.snd ∧
      (greedyStep eligible cond existing st p).matched.Nodup := by
  unfold greedyStep
  by_cases he : eligible p.2 = true
  · rw [if_pos he]
    cases hfind : findFirstMatch (cond p.2) st.matched existing with
    | none => exact ⟨h1, h2⟩
    | some ei =>
      have hnot : ei ∉ st.matched := findFirstMatch_not_matched _ _ _ _ hfind
      refine ⟨?_, setAdd_nodup h2 ei⟩
      simp [setAdd, if_neg hnot, h1]
  · rw [if_neg he]
    exact ⟨h1, h2⟩

theorem greedy_matched_invariant (eligible : Tx → Bool) (cond : Tx → Tx → Bool)
    (existing : List (Nat × Tx)) :
    ∀ (l : List (Nat × Tx)) (st : DetectState),
      st.matched = st.pairs.map Prod.snd → st.matched.Nodup →
      (l.foldl (greedyStep eligible cond existing) st).matched
          = (l.foldl (greedyStep eligible cond existing) st).pairs.map Prod.snd ∧
        (l.foldl (greedyStep eligible cond existing) st).matched.Nodup := by
  intro l
  induction l with
  | nil => intro st h1 h2; exact ⟨h1, h2⟩
  | cons p rest ih =>
    intro st h1 h2
    rw [List.foldl_cons]
    obtain ⟨h1', h2'⟩ := greedyStep_invariant eligible cond existing st p h1 h2
    exact ih _ h1' h2'

/-- Consumed existing records and recorded pairs coincide, with no existing
index consumed twice: the `matched` set equals the second projections of
`pairs`, which are duplicate-free. -/
theorem greedyDetect_one_to_one (eligible : Tx → Bool) (cond : Tx → Tx → Bool)
    (newTxs existingTxs : List Tx) :
    ((greedyDetect eligible cond newTxs existingTxs).pairs.map Prod.snd).Nodup := by
  have h := greedy_matched_invariant eligible cond (withIdx 0 existingTxs)
    (withIdx 0 newTxs) emptyDetectState rfl List.nodup_nil
  exact h.1 ▸ h.2

/-- C4. `detectAibTransfers` is greedy and one-to-one: given one new
`*MOBI`-marked transaction and two existing transactions that both satisfy the
match criteria, exactly the first existing transaction (index 0) is consumed
and paired, while the second (index 1) remains unmatched and un-flagged; and
in general no consumed existing transaction is ever matched again (the
existing components of the recorded pairs are duplicate-free). -/
theorem detectAibTransfers_greedy_one_to_one (nt e1 e2 : Tx)
    (hn : hasMobiMarker nt = true)
    (h1 : aibMatchCond nt e1 = true)
    (h2 : aibMatchCond nt e2 = true) :
    detectAibTransfers [nt] [e1, e2] =
      { newIndices := [0], existingIndices := [0], matched := [0], pairs := [(0, 0)] } ∧
    ∀ newTxs existingTxs : List Tx,
      ((detectAibTransfers newTxs existingTxs).pairs.map Prod.snd).Nodup := by
  constructor
  · show (withIdx 0 [nt]).foldl
      (greedyStep hasMobiMarker aibMatchCond (withIdx 0 [e1, e2])) emptyDetectState = _
    simp [withIdx, greedyStep, findFirstMatch, emptyDetectState, setAdd, hn, h1]
  · intro newTxs existingTxs
    exact greedyDetect_one_to_one hasMobiMarker aibMatchCond newTxs existingTxs

/-- Witness for C4: one new `*MOBI` expense against two equally eligible
existing `*MOBI` incomes on the same day; only existing index 0 is consumed. -/
theorem detectAibTransfers_greedy_one_to_one_witness :
    detectAibTransfers
        [⟨"Payment *MOBI Jane", 2000, .expense, 1709251200000, "EUR"⟩]
        [⟨"*MOBI lodgement A", 2000, .income, 1709251200000, "EUR"⟩,
         ⟨"*MOBI lodgement B", 2000, .income, 1709294400000, "EUR"⟩] =
      { newIndices := [0], existingIndices := [0], matched := [0], pairs := [(0, 0)] } :=
  (detectAibTransfers_greedy_one_to_one
    ⟨"Payment *MOBI Jane", 2000, .expense, 1709251200000, "EUR"⟩
    ⟨"*MOBI lodgement A", 2000, .income, 1709251200000, "EUR"⟩
    ⟨"*MOBI lodgement B", 2000, .income, 1709294400000, "EUR"⟩
    (by decide) (by decide) (by decide)).1

/-- C5. `detectCrossBankTransfers` matches a new/existing pair exactly
under opposite kind, equal absolute amount, equal currency, and absolute date
difference at most 4 days (4 days apart ⇒ matched; more, e.g. 5 days ⇒ not
matched), with the same greedy consume-once discipline (duplicate-free
existing components). -/
theorem detectCrossBankTransfers_four_day_boundary (nt et : Tx) (s1 s2 : Source)
    (hamt : nt.amount.natAbs = et.amount.natAbs)
    (hcur : nt.currency = et.currency)
    (hkind : nt.kind ≠ et.kind) :
    ((nt.date - et.date).natAbs ≤ 4 * 86400000 →
      detectCrossBankTransfers [nt] [et] s1 s2 =
        { newIndices := [0], existingIndices := [0], matched := [0], pairs := [(0, 0)] }) ∧
    (4 * 86400000 < (nt.date - et.date).natAbs →
      detectCrossBankTransfers [nt] [et] s1 s2 = emptyDetectState) ∧
    ∀ (n e : List Tx) (sa sb : Source),
      ((detectCrossBankTransfers n e sa sb).pairs.map Prod.snd).Nodup := by
  refine ⟨?_, ?_, ?_⟩
  · intro hdate
    have hc : crossMatchCond nt et = true := by
      simp [crossMatchCond, hdate, hamt, hcur, hkind]
    show (withIdx 0 [nt]).foldl
      (greedyStep (fun _ => true) crossMatchCond (withIdx 0 [et])) emptyDetectState = _
    simp [withIdx, greedyStep, findFirstMatch, emptyDetectState, setAdd, hc]
  · intro hdate
    have hc : crossMatchCond nt et = false := by
      simp [crossMatchCond]
      intro h
      omega
    show (withIdx 0 [nt]).foldl
      (greedyStep (fun _ => true) crossMatchCond (withIdx 0 [et])) emptyDetectState = _
    simp [withIdx, greedyStep, findFirstMatch, emptyDetectState, hc]
  · intro n e sa sb
    exact greedyDetect_one_to_one (fun _ => true) crossMatchCond n e

/-- Witness for C5: equal-amount, equal-currency, opposite-kind candidates
exactly 4 days apart are matched; 5 days apart are not.
(2024-03-01 vs 2024-03-05, then 2024-03-01 vs 2024-03-06.) -/
theorem detectCrossBankTransfers_four_day_boundary_witness :
    detectCrossBankTransfers
        [⟨"AIB outgoing", 10000, .expense, 1709596800000, "EUR"⟩]
        [⟨"Revolut topup", 10000, .income, 1709251200000, "EUR"⟩]
        .aib_import .revolut_import =
      { newIndices := [0], existingIndices := [0], matched := [0], pairs := [(0, 0)] } ∧
    detectCrossBankTransfers
        [⟨"AIB outgoing", 10000, .expense, 1709683200000, "EUR"⟩]
        [⟨"Revolut topup", 10000, .income, 1709251200000, "EUR"⟩]
        .aib_import .revolut_import = emptyDetectState :=
  ⟨(detectCrossBankTransfers_four_day_boundary
      ⟨"AIB outgoing", 10000, .expense, 1709596800000, "EUR"⟩
      ⟨"Revolut topup", 10000, .income, 1709251200000, "EUR"⟩
      .aib_import .revolut_import
      (by decide) (by decide) (by decide)).1 (by decide),
   ((detectCrossBankTransfers_four_day_boundary
      ⟨"AIB outgoing", 10000, .expense, 1709683200000, "EUR"⟩
      ⟨"Revolut topup", 10000, .income, 1709251200000, "EUR"⟩
      .aib_import .revolut_import
      (by decide) (by decide) (by decide)).2).1 (by decide)⟩

/-- C10. The result of `detectCrossBankTransfers` is independent of its
`newSource` and `existingSource` label arguments: the body never inspects
them, so no different-provider constraint is enforced inside the routine (the
caller must pre-filter the existing list by provider). -/
theorem detectCrossBankTransfers_source_independent :
    ∀ (n e : List Tx) (s1 s2 s1' s2' : Source),
      detectCrossBankTransfers n e s1 s2 = detectCrossBankTransfers n e s1' s2' := by
  intro n e s1 s2 s1' s2'
  rfl

/-- C6 counterexample. The prefix stripping is *not* run to a fixed
point: on the stacked title `"D/D TST-Shop"` the single ordered pass removes
`D/D` but leaves the `TST-` prefix in place (the `TST-` replace has already
run), so not all leading noise prefixes are removed. -/
theorem cleanDisplayName_not_fixed_point :
    cleanDisplayName "D/D TST-Shop" = "TST-Shop" ∧
      matchesCI "tst-" (cleanDisplayName "D/D TST-Shop").data = true ∧
      cleanDisplayName "D/D TST-Shop" ≠ "Shop" := by
  decide

/-- C6 amended. The display-name cleanup strips the noise prefixes in a
single ordered pass (`TST-`, then `D/D`, then `VDP-`, then `VDC-`, each at
most once — not iterated to a fixed point), then removes masked card numbers
and trailing asterisks and trims, falling back to the raw title when the
cleaned result is empty.  Stacked leading prefixes are all removed when they
occur in pass order: `TST-` followed by `D/D` followed by an inert remainder
is stripped completely. -/
theorem dropAibNoise_single_ordered_pass (body : List Char)
    (hws : body.dropWhile isWsChar = body)
    (hvdp : matchesCI "vdp-" body = false)
    (hvdc : matchesCI "vdc-" body = false) :
    dropAibNoise (("TST-D/D ").data ++ body) = body ∧
      (∀ t : String, cleanDisplayName t = "" → aibDisplayName t = t) ∧
      (∀ t : String, cleanDisplayName t ≠ "" → aibDisplayName t = cleanDisplayName t) := by
  refine ⟨?_, ?_, ?_⟩
  · have m1 : matchesCI "tst-" (("TST-D/D ").data ++ body) = true := rfl
    have s1 : dropNoiseCI "tst-" (("TST-D/D ").data ++ body)
        = 'D' :: '/' :: 'D' :: ' ' :: body := by
      rw [dropNoiseCI, if_pos m1]
      rfl
    have m2 : matchesCI "d/d" ('D' :: '/' :: 'D' :: ' ' :: body) = true := rfl
    have s2 : dropNoiseCI "d/d" ('D' :: '/' :: 'D' :: ' ' :: body) = body := by
      rw [dropNoiseCI, if_pos m2]
      show (' ' :: body).dropWhile isWsChar = body
      rw [List.dropWhile_cons]
      simp [isWsChar, hws]
    rw [dropAibNoise, s1, s2]
    simp [dropNoiseCI, hvdp, hvdc]
  · intro t h
    simp [aibDisplayName, h]
  · intro t h
    simp [aibDisplayName, h]

/-- Witness for the amended C6: the fully stacked-in-order title
`TST-D/D Shop` strips to `Shop`. -/
theorem dropAibNoise_single_ordered_pass_witness :
    dropAibNoise (("TST-D/D ").data ++ ("Shop").data) = ("Shop").data :=
  (dropAibNoise_single_ordered_pass ("Shop").data
    (by decide) (by decide) (by decide)).1

/-- C7. Format detection tests the dialect-B fingerprint before the
dialect-A fingerprint before the structural fallback (any header passing the
AIB check classifies as AIB regardless of the Revolut check; a header failing
the AIB check but passing the Revolut check classifies as Revolut; failing
both defers to the structural fallback), and concretely: the Revolut header
is dialect A, the AIB header is dialect B, and a `Date,Amount` header with a
4-column second row led by `05/01/2024` is dialect B via the fallback. -/
theorem detectCSVProvider_order_and_fingerprints :
    detectCSVProvider
        "Type,Product,Started Date,Completed Date,Description,Amount,Fee,Currency,State,Balance"
      = .revolut ∧
    detectCSVProvider "Date,Description,Debit,Credit,Balance" = .aib ∧
    detectCSVProvider "Date,Amount\n05/01/2024,10.00,Tesco,100.00" = .aib ∧
    (∀ (content h : String), headerLineOf content = some h →
      aibHeaderCheck (jsToLower h) = true → detectCSVProvider content = .aib) ∧
    (∀ (content h : String), headerLineOf content = some h →
      aibHeaderCheck (jsToLower h) = false → revolutHeaderCheck (jsToLower h) = true →
      detectCSVProvider content = .revolut) ∧
    (∀ (content h : String), headerLineOf content = some h →
      aibHeaderCheck (jsToLower h) = false → revolutHeaderCheck (jsToLower h) = false →
      detectCSVProvider content = structuralFallback (jsSplit '\n' (jsTrim content))) := by
  refine ⟨by decide, by decide, by decide, ?_, ?_, ?_⟩
  all_goals
    intro content h hheader
  · intro hcheck
    unfold detectCSVProvider
    have hne : ¬ jsTrim content = "" := by
      intro hempty
      rw [headerLineOf, hempty] at hheader
      simp [jsSplit, splitOnChar, jsTrim, trimChars] at hheader
    rw [if_neg hne]
    have hlen : ¬ (jsSplit '\n' (jsTrim content)).length = 0 := by
      intro hzero
      rw [headerLineOf, List.length_eq_zero.mp hzero] at hheader
      simp at hheader
    rw [if_neg hlen, hheader]
    simp [hcheck]
  · intro hcheck1 hcheck2
    unfold detectCSVProvider
    have hne : ¬ jsTrim content = "" := by
      intro hempty
      rw [headerLineOf, hempty] at hheader
      simp [jsSplit, splitOnChar, jsTrim, trimChars] at hheader
    rw [if_neg hne]
    have hlen : ¬ (jsSplit '\n' (jsTrim content)).length = 0 := by
      intro hzero
      rw [headerLineOf, List.length_eq_zero.mp hzero] at hheader
      simp at hheader
    rw [if_neg hlen, hheader]
    simp [hcheck1, hcheck2]
  · intro hcheck1 hcheck2
    unfold detectCSVProvider
    have hne : ¬ jsTrim content = "" := by
      intro hempty
      rw [headerLineOf, hempty] at hheader
      simp [jsSplit, splitOnChar, jsTrim, trimChars] at hheader
    rw [if_neg hne]
    have hlen : ¬ (jsSplit '\n' (jsTrim content)).length = 0 := by
      intro hzero
      rw [headerLineOf, List.length_eq_zero.mp hzero] at hheader
      simp at hheader
    rw [if_neg hlen, hheader]
    simp [hcheck1, hcheck2]

/-- Witness for C7: the AIB-first universal applied to the concrete AIB
header. -/
theorem detectCSVProvider_order_and_fingerprints_witness :
    detectCSVProvider "Date,Description,Debit,Credit,Balance" = .aib :=
  detectCSVProvider_order_and_fingerprints.2.2.2.1
    "Date,Description,Debit,Credit,Balance" "Date,Description,Debit,Credit,Balance"
    (by decide) (by decide)

theorem parseRows_spec {α : Type} (outcome : String → RowOutcome α)
    (ps : List (Nat × String)) :
    ∀ st : ParseAcc α,
      (ps.foldl (parseRowsStep outcome) st).transactions
          = st.transactions ++ recordsOf outcome ps ∧
        (ps.foldl (parseRowsStep outcome) st).skipped
          = st.skipped + (skipEntriesOf outcome ps).length ∧
        (ps.foldl (parseRowsStep outcome) st).skippedDetails
          = st.skippedDetails ++ skipEntriesOf outcome ps := by
  induction ps with
  | nil => intro st; simp [recordsOf, skipEntriesOf]
  | cons p ps ih =>
    intro st
    rw [List.foldl_cons]
    cases houtcome : outcome p.2 with
    | record t =>
      have hstep : parseRowsStep outcome st p
          = { st with transactions := st.transactions ++ [t] } := by
        unfold parseRowsStep
        rw [houtcome]
      obtain ⟨h1, h2, h3⟩ := ih { st with transactions := st.transactions ++ [t] }
      rw [hstep]
      refine ⟨?_, ?_, ?_⟩
      · rw [h1]
        simp [recordsOf, List.filterMap_cons, houtcome]
      · rw [h2]
        simp [skipEntriesOf, List.filterMap_cons, houtcome]
      · rw [h3]
        simp [skipEntriesOf, List.filterMap_cons, houtcome]
    | skip r =>
      have hstep : parseRowsStep outcome st p
          = { st with
              skipped := st.skipped + 1
              skippedDetails := st.skippedDetails ++ [⟨p.1 + 2, r⟩] } := by
        unfold parseRowsStep
        rw [houtcome]
      obtain ⟨h1, h2, h3⟩ := ih
        { st with
          skipped := st.skipped + 1
          skippedDetails := st.skippedDetails ++ [⟨p.1 + 2, r⟩] }
      rw [hstep]
      refine ⟨?_, ?_, ?_⟩
      · rw [h1]
        simp [recordsOf, List.filterMap_cons, houtcome]
      · rw [h2]
        simp [skipEntriesOf, List.filterMap_cons, houtcome]
        omega
      · rw [h3]
        simp [skipEntriesOf, List.filterMap_cons, houtcome]

/-- Every data row is exactly one of a record or a skip. -/
theorem rows_partition {α : Type} (outcome : String → RowOutcome α) :
    ∀ ps : List (Nat × String),
      (recordsOf outcome ps).length + (skipEntriesOf outcome ps).length = ps.length := by
  intro ps
  induction ps with
  | nil => simp [recordsOf, skipEntriesOf]
  | cons p ps ih =>
    cases houtcome : outcome p.2 with
    | record t =>
      simp [recordsOf, skipEntriesOf, List.filterMap_cons, houtcome] at ih ⊢
      omega
    | skip r =>
      simp [recordsOf, skipEntriesOf, List.filterMap_cons, houtcome] at ih ⊢
      omega

theorem withIdx_length {α : Type} (l : List α) : ∀ n, (withIdx n l).length = l.length := by
  induction l with
  | nil => intro n; rfl
  | cons x xs ih => intro n; simp [withIdx, ih]

theorem revRowOutcome_reasons (cols : RevCols) (line : String) :
    (revRowOutcome cols line = .skip "Empty line" ↔ jsTrim line = "") ∧
    (revRowOutcome cols line = .skip "Not enough columns" ↔
      ¬ jsTrim line = "" ∧ (parseCSVLine (jsTrim line)).length < 3) ∧
    (revRowOutcome cols line = .skip "Invalid amount" ↔
      ¬ jsTrim line = "" ∧ ¬ (parseCSVLine (jsTrim line)).length < 3 ∧
        revAmountOf (parseCSVLine (jsTrim line)) cols = none) ∧
    (∀ reason : String, revRowOutcome cols line = .skip reason →
      reason = "Empty line" ∨ reason = "Not enough columns" ∨ reason = "Invalid amount") := by
  have hne12 : ("Empty line" : String) ≠ "Not enough columns" := by decide
  have hne13 : ("Empty line" : String) ≠ "Invalid amount" := by decide
  have hne23 : ("Not enough columns" : String) ≠ "Invalid amount" := by decide
  by_cases h1 : jsTrim line = ""
  · simp [revRowOutcome, h1, hne12, hne13]
  · by_cases h2 : (parseCSVLine (jsTrim line)).length < 3
    · simp [revRowOutcome, h1, h2, hne12.symm, hne23]
    · cases hamt : revAmountOf (parseCSVLine (jsTrim line)) cols with
      | none => simp [revRowOutcome, h1, h2, hamt, hne13.symm, hne23.symm]
      | some a => simp [revRowOutcome, h1, h2, hamt]

theorem aibRowOutcome_reasons (cols : AibCols) (line : String) :
    (aibRowOutcome cols line = .skip "Empty line" ↔ jsTrim line = "") ∧
    (aibRowOutcome cols line = .skip "Not enough columns" ↔
      ¬ jsTrim line = "" ∧ (parseCSVLine (jsTrim line)).length < 2) ∧
    (aibRowOutcome cols line = .skip "Invalid amount" ↔
      ¬ jsTrim line = "" ∧ ¬ (parseCSVLine (jsTrim line)).length < 2 ∧
        aibAmountValue (parseCSVLine (jsTrim line)) cols = none) ∧
    (∀ reason : String, aibRowOutcome cols line = .skip reason →
      reason = "Empty line" ∨ reason = "Not enough columns" ∨ reason = "Invalid amount") := by
  have hne12 : ("Empty line" : String) ≠ "Not enough columns" := by decide
  have hne13 : ("Empty line" : String) ≠ "Invalid amount" := by decide
  have hne23 : ("Not enough columns" : String) ≠ "Invalid amount" := by decide
  by_cases h1 : jsTrim line = ""
  · simp [aibRowOutcome, h1, hne12, hne13]
  · by_cases h2 : (parseCSVLine (jsTrim line)).length < 2
    · simp [aibRowOutcome, h1, h2, hne12.symm, hne23]
    · cases hamt : aibAmountValue (parseCSVLine (jsTrim line)) cols with
      | none => simp [aibRowOutcome, h1, h2, hamt, hne13.symm, hne23.symm]
      | some a => simp [aibRowOutcome, h1, h2, hamt]

/-- C8. Skip accounting: whenever `parseRevolutCSV` / `parseAibCSV`
returns, `totalRows = parsed + skipped` and `skippedDetails.length = skipped`;
the diagnostics are exactly one entry per skipped data row, carrying the
1-based source line number (header is line 1, data row `k` is line `k + 2`),
with reason "Empty line" for blank lines, "Not enough columns" below the
dialect minimum (3 for dialect A, 2 for dialect B), "Invalid amount" for an
unparseable amount, and no other reason (the source's "Parse error" catch-all
guards row construction, which cannot throw). -/
theorem parse_skip_accounting :
    (∀ (csv : String) (r : RevolutParseResult), parseRevolutCSV csv = .ok r →
      r.totalRows = r.transactions.length + r.skipped ∧
      r.skippedDetails.length = r.skipped ∧
      r.skippedDetails =
        skipEntriesOf (revRowOutcome (mkRevCols (parseCSVLine ((splitLines csv).headD ""))))
          (withIdx 0 ((splitLines csv).drop 1))) ∧
    (∀ (csv : String) (r : AibParseResult), parseAibCSV csv = .ok r →
      r.totalRows = r.transactions.length + r.skipped ∧
      r.skippedDetails.length = r.skipped ∧
      r.skippedDetails =
        skipEntriesOf
          (aibRowOutcome (mkAibCols (parseCSVLine (stripBOM ((splitLines csv).headD "")))))
          (withIdx 0 ((splitLines csv).drop 1))) ∧
    (∀ (cols : RevCols) (line : String),
      (revRowOutcome cols line = .skip "Empty line" ↔ jsTrim line = "") ∧
      (revRowOutcome cols line = .skip "Not enough columns" ↔
        ¬ jsTrim line = "" ∧ (parseCSVLine (jsTrim line)).length < 3) ∧
      (revRowOutcome cols line = .skip "Invalid amount" ↔
        ¬ jsTrim line = "" ∧ ¬ (parseCSVLine (jsTrim line)).length < 3 ∧
          revAmountOf (parseCSVLine (jsTrim line)) cols = none) ∧
      (∀ reason : String, revRowOutcome cols line = .skip reason →
        reason = "Empty line" ∨ reason = "Not enough columns" ∨ reason = "Invalid amount")) ∧
    (∀ (cols : AibCols) (line : String),
      (aibRowOutcome cols line = .skip "Empty line" ↔ jsTrim line = "") ∧
      (aibRowOutcome cols line = .skip "Not enough columns" ↔
        ¬ jsTrim line = "" ∧ (parseCSVLine (jsTrim line)).length < 2) ∧
      (aibRowOutcome cols line = .skip "Invalid amount" ↔
        ¬ jsTrim line = "" ∧ ¬ (parseCSVLine (jsTrim line)).length < 2 ∧
          aibAmountValue (parseCSVLine (jsTrim line)) cols = none) ∧
      (∀ reason : String, aibRowOutcome cols line = .skip reason →
        reason = "Empty line" ∨ reason = "Not enough columns" ∨ reason = "Invalid amount")) := by
  refine ⟨?_, ?_, revRowOutcome_reasons, aibRowOutcome_reasons⟩
  · intro csv r h
    simp only [parseRevolutCSV] at h
    by_cases hlen : (splitLines csv).length < 2
    · rw [if_pos hlen] at h
      exact absurd h (by simp)
    · rw [if_neg hlen] at h
      cases hamt : (mkRevCols (parseCSVLine ((splitLines csv).headD ""))).amountIdx with
      | none =>
        rw [hamt] at h
        exact absurd h (by simp)
      | some k =>
        rw [hamt] at h
        simp only [Except.ok.injEq] at h
        subst h
        obtain ⟨hT, hS, hD⟩ := parseRows_spec
          (revRowOutcome (mkRevCols (parseCSVLine ((splitLines csv).headD ""))))
          (withIdx 0 ((splitLines csv).drop 1)) ⟨[], 0, []⟩
        have htotal := rows_partition
          (revRowOutcome (mkRevCols (parseCSVLine ((splitLines csv).headD ""))))
          (withIdx 0 ((splitLines csv).drop 1))
        have hlen2 : (withIdx 0 ((splitLines csv).drop 1)).length
            = (splitLines csv).length - 1 := by
          rw [withIdx_length, List.length_drop]
        dsimp only
        unfold parseRows
        refine ⟨?_, ?_, ?_⟩
        · rw [hT, hS]
          simp only [List.nil_append, Nat.zero_add]
          omega
        · rw [hS, hD]
          simp
        · rw [hD]
          simp
  · intro csv r h
    simp only [parseAibCSV] at h
    by_cases hlen : (splitLines csv).length < 2
    · rw [if_pos hlen] at h
      exact absurd h (by simp)
    · rw [if_neg hlen] at h
      by_cases hcols :
          (mkAibCols (parseCSVLine (stripBOM ((splitLines csv).headD "")))).dateIdx = none ∨
          ((mkAibCols (parseCSVLine (stripBOM ((splitLines csv).headD "")))).amountIdx = none ∧
            (mkAibCols (parseCSVLine (stripBOM ((splitLines csv).headD "")))).debitIdx = none ∧
            (mkAibCols (parseCSVLine (stripBOM ((splitLines csv).headD "")))).creditIdx = none)
      · rw [if_pos hcols] at h
        exact absurd h (by simp)
      · rw [if_neg hcols] at h
        simp only [Except.ok.injEq] at h
        subst h
        obtain ⟨hT, hS, hD⟩ := parseRows_spec
          (aibRowOutcome (mkAibCols (parseCSVLine (stripBOM ((splitLines csv).headD "")))))
          (withIdx 0 ((splitLines csv).drop 1)) ⟨[], 0, []⟩
        have htotal := rows_partition
          (aibRowOutcome (mkAibCols (parseCSVLine (stripBOM ((splitLines csv).headD "")))))
          (withIdx 0 ((splitLines csv).drop 1))
        have hlen2 : (withIdx 0 ((splitLines csv).drop 1)).length
            = (splitLines csv).length - 1 := by
          rw [withIdx_length, List.length_drop]
        dsimp only
        unfold parseRows
        refine ⟨?_, ?_, ?_⟩
        · rw [hT, hS]
          simp only [List.nil_append, Nat.zero_add]
          omega
        · rw [hS, hD]
          simp
        · rw [hD]
          simp

/-- Witness for C8: both parsers applied to concrete files exercising all
three skip causes; `3 = 0 + 3` with three line-numbered diagnostics each. -/
theorem parse_skip_accounting_witness :
    (revWitnessResult.totalRows
        = revWitnessResult.transactions.length + revWitnessResult.skipped ∧
      revWitnessResult.skippedDetails.length = revWitnessResult.skipped ∧
      revWitnessResult.skippedDetails =
        skipEntriesOf
          (revRowOutcome (mkRevCols (parseCSVLine
            ((splitLines "Amount,B,C\n\nxx\nabc,1,2").headD ""))))
          (withIdx 0 ((splitLines "Amount,B,C\n\nxx\nabc,1,2").drop 1))) ∧
    (aibWitnessResult.totalRows
        = aibWitnessResult.transactions.length + aibWitnessResult.skipped ∧
      aibWitnessResult.skippedDetails.length = aibWitnessResult.skipped ∧
      aibWitnessResult.skippedDetails =
        skipEntriesOf
          (aibRowOutcome (mkAibCols (parseCSVLine (stripBOM
            ((splitLines "Date,Amount\n\nxx\n01/02/2024,abc").headD "")))))
          (withIdx 0 ((splitLines "Date,Amount\n\nxx\n01/02/2024,abc").drop 1))) :=
  ⟨parse_skip_accounting.1 "Amount,B,C\n\nxx\nabc,1,2" revWitnessResult (by decide),
   parse_skip_accounting.2.1 "Date,Amount\n\nxx\n01/02/2024,abc" aibWitnessResult (by decide)⟩

/-- C9. Fatal parse errors, exactly: `parseRevolutCSV` throws iff the
input has fewer than 2 lines or the header resolves no `amount`-aliased
column; `parseAibCSV` throws iff the input has fewer than 2 lines, or the
header resolves no date column, or none of the amount / debit / credit
columns; in every other case the parser returns a result (malformed rows
become non-fatal skips, per C8). -/
theorem parse_fatal_errors :
    (∀ csv : String, (∃ e, parseRevolutCSV csv = .error e) ↔
      ((splitLines csv).length < 2 ∨
        (mkRevCols (parseCSVLine ((splitLines csv).headD ""))).amountIdx = none)) ∧
    (∀ csv : String, (∃ e, parseAibCSV csv = .error e) ↔
      ((splitLines csv).length < 2 ∨
        (mkAibCols (parseCSVLine (stripBOM ((splitLines csv).headD "")))).dateIdx = none ∨
        ((mkAibCols (parseCSVLine (stripBOM ((splitLines csv).headD "")))).amountIdx = none ∧
          (mkAibCols (parseCSVLine (stripBOM ((splitLines csv).headD "")))).debitIdx = none ∧
          (mkAibCols (parseCSVLine (stripBOM ((splitLines csv).headD "")))).creditIdx = none))) := by
  constructor
  · intro csv
    simp only [parseRevolutCSV]
    by_cases hlen : (splitLines csv).length < 2
    · rw [if_pos hlen]
      exact ⟨fun _ => Or.inl hlen, fun _ => ⟨_, rfl⟩⟩
    · rw [if_neg hlen]
      cases hamt : (mkRevCols (parseCSVLine ((splitLines csv).headD ""))).amountIdx with
      | none =>
        exact ⟨fun _ => Or.inr rfl, fun _ => ⟨_, rfl⟩⟩
      | some k =>
        constructor
        · rintro ⟨e, he⟩
          exact absurd he (by simp)
        · rintro (h | h)
          · exact absurd h hlen
          · exact absurd h (Option.some_ne_none k)
  · intro csv
    simp only [parseAibCSV]
    by_cases hlen : (splitLines csv).length < 2
    · rw [if_pos hlen]
      exact ⟨fun _ => Or.inl hlen, fun _ => ⟨_, rfl⟩⟩
    · rw [if_neg hlen]
      by_cases hcols :
          (mkAibCols (parseCSVLine (stripBOM ((splitLines csv).headD "")))).dateIdx = none ∨
          ((mkAibCols (parseCSVLine (stripBOM ((splitLines csv).headD "")))).amountIdx = none ∧
            (mkAibCols (parseCSVLine (stripBOM ((splitLines csv).headD "")))).debitIdx = none ∧
            (mkAibCols (parseCSVLine (stripBOM ((splitLines csv).headD "")))).creditIdx = none)
      · rw [if_pos hcols]
        exact ⟨fun _ => Or.inr hcols, fun _ => ⟨_, rfl⟩⟩
      · rw [if_neg hcols]
        constructor
        · rintro ⟨e, he⟩
          exact absurd he (by simp)
        · rintro (h | h)
          · exact absurd h hlen
          · exact absurd h hcols

/-- Witness for C9: a one-line file and a header without an amount-family
column both throw; a well-formed two-line file does not. -/
theorem parse_fatal_errors_witness :
    (∃ e, parseRevolutCSV "only one line" = .error e) ∧
      (∃ e, parseAibCSV "Date,Description\n01/02/2024,x" = .error e) ∧
      ¬ (∃ e, parseRevolutCSV "Amount,B,C\n1,2,3" = .error e) :=
  ⟨(parse_fatal_errors.1 "only one line").mpr (Or.inl (by decide)),
   (parse_fatal_errors.2 "Date,Description\n01/02/2024,x").mpr (Or.inr (Or.inr
      (by refine ⟨?_, ?_, ?_⟩ <;> decide))),
   fun hcon => by
      have := (parse_fatal_errors.1 "Amount,B,C\n1,2,3").mp hcon
      revert this
      decide⟩

/-- C3 counterexample. The dialect-B comma stripping treats `,` as a
thousands separator, so a row with Debit=`45,00` parses as debit 4500 (major
units), yielding amount `-4500` and canonical minor-units amount `450000` —
not `-45.00` / `4500` as the claim's concrete consequence states.  (The
column layout is `Date,Description,Debit`: `dateIdx = 0`, `descIdx = 1`,
`debitIdx = 2`, no amount or credit column.) -/
theorem aibAmount_comma_counterexample :
    aibAmountValue ["01/02/2024", "desc", "45,00"]
        ⟨some 0, some 1, none, some 2, none, none, none, none⟩ = some (-4500) ∧
      aibCanonKind (-4500) = Kind.expense ∧
      aibCanonAmount (-4500) = 450000 ∧
      ¬ aibCanonAmount (-4500) = 4500 := by
  have h1 : jsParseFloat "4500" = some 4500 := by
    simp +decide [jsParseFloat, leadDigits, digitsToNat, parseExpAux, isWsChar]
  have habs : -|(4500 : Rat)| = -4500 := by norm_num
  have hne : ((-4500 : Rat)) ≠ 0 := by norm_num
  refine ⟨?_, ?_, ?_, ?_⟩
  · simp +decide [aibAmountValue, aibDebitStep, aibCreditStep, jsTrim, trimChars,
      isWsChar, stripCommas, h1, habs, hne]
  · simp only [aibCanonKind, if_pos (by norm_num : (-4500 : Rat) < 0)]
  · norm_num [aibCanonAmount, jsRound]
  · norm_num [aibCanonAmount, jsRound]

/-- C3 amended. Dialect-B amount derivation follows the
debit-then-credit-then-amount precedence, with commas stripped from numeric
fields before parsing as thousands separators: a non-empty non-zero debit
gives `amount = -|debit|`; else a non-empty non-zero credit gives
`amount = +|credit|`; else the generic amount column is used with its own
sign.  In particular a row with Debit=`45,00` and no credit yields amount
`-4500` (the comma is stripped, not read as a decimal point), which
canonicalizes to kind `expense` with `450000` minor units. -/
theorem aibAmount_precedence (fields : List String) (cols : AibCols)
    (k : Nat) (f : String) (d : Rat)
    (hk : cols.debitIdx = some k) (hf : fields[k]? = some f)
    (hne : ¬ jsTrim f = "") (hd : jsParseFloat (stripCommas (jsTrim f)) = some d)
    (hd0 : ¬ d = 0) :
    aibAmountValue fields cols = some (-|d|) ∧
    (∀ (fields' : List String) (cols' : AibCols) (k' : Nat) (f' : String) (c : Rat),
      aibDebitStep fields' cols' = 0 →
      cols'.creditIdx = some k' → fields'[k']? = some f' → ¬ jsTrim f' = "" →
      jsParseFloat (stripCommas (jsTrim f')) = some c → ¬ c = 0 →
      aibAmountValue fields' cols' = some |c|) ∧
    (∀ (fields' : List String) (cols' : AibCols) (k' : Nat) (f' : String),
      aibDebitStep fields' cols' = 0 → aibCreditStep fields' cols' 0 = 0 →
      cols'.amountIdx = some k' → fields'[k']? = some f' → ¬ f' = "" →
      aibAmountValue fields' cols' = jsParseFloat (stripCommas (jsTrim f'))) ∧
    (aibCanonKind (-4500) = Kind.expense ∧ aibCanonAmount (-4500) = 450000) := by
  refine ⟨?_, ?_, ?_, ?_, ?_⟩
  · have hstep : aibDebitStep fields cols = -|d| := by
      simp [aibDebitStep, hk, hf, hne, hd, hd0]
    have hnz : ¬ (-|d| : Rat) = 0 := by simpa using hd0
    simp [aibAmountValue, aibCreditStep, hstep, hnz]
  · intro fields' cols' k' f' c hdz hk' hf' hne' hc hc0
    have hstep : aibCreditStep fields' cols' (aibDebitStep fields' cols') = |c| := by
      rw [hdz]
      simp [aibCreditStep, hk', hf', hne', hc, hc0]
    have hnz : ¬ (|c| : Rat) = 0 := by simpa using hc0
    simp [aibAmountValue, hstep, hnz]
  · intro fields' cols' k' f' hdz hcz hk' hf' hne'
    have hstep : aibCreditStep fields' cols' (aibDebitStep fields' cols') = 0 := by
      rw [hdz, hcz]
    simp [aibAmountValue, hstep, hk', hf', hne']
  · simp only [aibCanonKind, if_pos (by norm_num : (-4500 : Rat) < 0)]
  · norm_num [aibCanonAmount, jsRound]

/-- Witness for the amended C3: the debit branch applied to the concrete
`Debit = "45,00"` row, yielding `-|4500|`. -/
theorem aibAmount_precedence_witness :
    aibAmountValue ["01/02/2024", "desc", "45,00"]
        ⟨some 0, some 1, none, some 2, none, none, none, none⟩ = some (-|(4500 : Rat)|) :=
  (aibAmount_precedence ["01/02/2024", "desc", "45,00"]
    ⟨some 0, some 1, none, some 2, none, none, none, none⟩ 2 "45,00" 4500
    rfl rfl (by decide)
    (by simp +decide [jsParseFloat, leadDigits, digitsToNat, parseExpAux, isWsChar,
      stripCommas, jsTrim, trimChars])
    (by norm_num)).1

/-- C1. Deduplication is an exact set-membership filter on the dedup key
(normalized title, absolute amount, kind, UTC calendar day): a candidate
survives `dedupeTransactions` exactly when it is a candidate whose key differs
from the key of every existing record — no amount tolerance and no date
window — and consequently, when every candidate's key already occurs among the
existing records' keys (as after re-importing an identical file), the filtered
list is empty and zero new records are created. -/
theorem dedupe_exact_filter_and_idempotent (E C : List Tx) :
    (∀ t : Tx, t ∈ dedupeTransactions E C ↔
      t ∈ C ∧ ∀ e ∈ E, makeKeyFromDoc e ≠ makeKeyFromTransaction t) ∧
    ((∀ t ∈ C, ∃ e ∈ E, makeKeyFromDoc e = makeKeyFromTransaction t) →
      dedupeTransactions E C = []) := by
  constructor
  · intro t
    simp only [dedupeTransactions, List.mem_filter, Bool.not_eq_true',
      ← Bool.not_eq_true, List.contains_iff_exists_mem_beq, List.mem_map]
    constructor
    · rintro ⟨ht, hk⟩
      refine ⟨ht, fun e he hkey => hk ?_⟩
      exact ⟨makeKeyFromDoc e, ⟨e, he, rfl⟩, by simp [hkey]⟩
    · rintro ⟨ht, hk⟩
      refine ⟨ht, fun hcon => ?_⟩
      rcases hcon with ⟨k, ⟨e, he, rfl⟩, hbeq⟩
      have hkey : makeKeyFromTransaction t = makeKeyFromDoc e := by simpa using hbeq
      exact hk e he hkey.symm
  · intro h
    simp only [dedupeTransactions, List.filter_eq_nil_iff, Bool.not_eq_true',
      ← Bool.not_eq_true, List.contains_iff_exists_mem_beq, List.mem_map,
      not_not]
    intro t ht
    rcases h t ht with ⟨e, he, hkey⟩
    exact ⟨makeKeyFromDoc e, ⟨e, he, rfl⟩, by simp [hkey]⟩

/-- Witness for C1: a concrete second-run import.  The existing history holds
one record; both candidates carry the same dedup key (differing only in raw
title whitespace/case and time of day, which the key normalizes away), so the
deduplicated list is empty. -/
theorem dedupe_exact_filter_and_idempotent_witness :
    dedupeTransactions
      [⟨"Tesco Store", 1250, .expense, 1709251200000, "EUR"⟩]
      [⟨"  tesco   store ", 1250, .expense, 1709280000000, "EUR"⟩,
       ⟨"TESCO STORE", 1250, .expense, 1709251200000, "EUR"⟩] = [] := by
  apply (dedupe_exact_filter_and_idempotent
      [⟨"Tesco Store", 1250, .expense, 1709251200000, "EUR"⟩]
      [⟨"  tesco   store ", 1250, .expense, 1709280000000, "EUR"⟩,
       ⟨"TESCO STORE", 1250, .expense, 1709251200000, "EUR"⟩]).2
  decide

end Loaded
